import Mathlib

/-!
Verification of the typed-lua type algebra and checker against its
natural-language specification.

The definitions below are a shallow embedding of `src/type.hpp`,
`src/type.cpp` and the table-constructor checking in `src/node.cpp`.
C++ machine integers are modelled as `Int`/`Nat` (no arithmetic is ever
performed on the stored payloads, so width is immaterial); IEEE-754
doubles appear only as opaque literal payloads compared structurally
(`NumberRep`), which is adequate for every statement proved here (none
involves NaN or signed zeros); C++ functions that can diverge are given
an explicit fuel parameter and return `Option`/a sentinel on exhaustion,
with the fuel consumed only at the call sites whose C++ counterparts are
not structurally decreasing.
-/

namespace typedlua

/-- Primitive runtime kinds, `enum class LuaType` in type.hpp. -/
inductive LuaType where
  | NIL
  | NUMBER
  | STRING
  | BOOLEAN
  | THREAD
deriving DecidableEq, Repr

/-- Number payload of a literal, `struct NumberRep`: tagged integer
(64-bit in C++) versus floating (IEEE-754 double in C++). The floating
payload is modelled as an opaque code compared structurally; the C++
`==` on doubles agrees with this on every value a checker-produced
literal can hold except NaN and signed zeros, which no statement below
relies on. -/
inductive NumberRep where
  | integer (i : Int)
  | floating (bits : Int)
deriving DecidableEq, Repr

/-- Equality of number representations, `operator==(NumberRep, NumberRep)`:
tag-sensitive, then payload comparison. -/
def numberRepEq (lhs rhs : NumberRep) : Bool :=
  match lhs, rhs with
  | .integer a, .integer b => a == b
  | .floating a, .floating b => a == b
  | _, _ => false

/-- Literal payload, `struct LiteralType`: a primitive tag plus value.
The C++ union also admits a default NIL-tagged state, which the checker
never feeds into the type algebra (`is_assignable` on it throws), so it
is omitted here. -/
inductive LiteralTy where
  | boolean (b : Bool)
  | number (n : NumberRep)
  | string (s : String)
deriving DecidableEq, Repr

/-- Underlying primitive of a literal, the `underlying_type` field. -/
def LiteralTy.underlying_type : LiteralTy → LuaType
  | .boolean _ => .BOOLEAN
  | .number _ => .NUMBER
  | .string _ => .STRING

mutual

/-- The type variant, `class Type` in type.hpp (tag order follows
`Type::Tag`). `NameType` is rendered as `String × Ty` and `KeyValPair`
as `Ty × Ty`. -/
inductive Ty where
  | void
  | any
  | luatype (lt : LuaType)
  | function (fn : FnTy)
  | tuple (tup : TupleTy)
  | sum (types : List Ty)
  | product (types : List Ty)
  | table (tab : TableTy)
  | deferred (defer : DeferTy)
  | literal (lit : LiteralTy)
  | nominal (defer : DeferTy)
  | require (basis : Ty)

/-- `struct FunctionType`: generic parameters (name and bound), their
nominal ids, parameter types, return type, variadic flag. -/
inductive FnTy where
  | mk (genparams : List (String × Ty)) (nominals : List Nat)
       (params : List Ty) (ret : Ty) (variadic : Bool)

/-- `struct TupleType`. -/
inductive TupleTy where
  | mk (types : List Ty) (is_variadic : Bool)

/-- `struct TableType`: `indexes` (key/value pairs) and `fields`
(name/type pairs). -/
inductive TableTy where
  | mk (indexes : List (Ty × Ty)) (fields : List (String × Ty))

/-- `struct DeferredType`: the owning collection (identified by a
token, standing in for the C++ pointer), the entry id, and optional
type arguments. -/
inductive DeferTy where
  | mk (collection : Nat) (id : Nat) (args : List (Option Ty))

end

instance : Inhabited Ty := ⟨Ty.void⟩

def FnTy.genparams : FnTy → List (String × Ty) | .mk g _ _ _ _ => g
def FnTy.nominals : FnTy → List Nat | .mk _ n _ _ _ => n
def FnTy.params : FnTy → List Ty | .mk _ _ p _ _ => p
def FnTy.ret : FnTy → Ty | .mk _ _ _ r _ => r
def FnTy.variadic : FnTy → Bool | .mk _ _ _ _ v => v

def TupleTy.types : TupleTy → List Ty | .mk t _ => t
def TupleTy.is_variadic : TupleTy → Bool | .mk _ v => v

def TableTy.indexes : TableTy → List (Ty × Ty) | .mk i _ => i
def TableTy.fields : TableTy → List (String × Ty) | .mk _ f => f

def DeferTy.collection : DeferTy → Nat | .mk c _ _ => c
def DeferTy.id : DeferTy → Nat | .mk _ i _ => i
def DeferTy.args : DeferTy → List (Option Ty) | .mk _ _ a => a

mutual

/-- Number of nodes in a type; used only as a fuel bound and as a
termination measure. -/
def tySize : Ty → Nat
  | .void => 1
  | .any => 1
  | .luatype _ => 1
  | .function fn => 1 + fnSize fn
  | .tuple tup => 1 + tupSize tup
  | .sum ts => 1 + tyListSize ts
  | .product ts => 1 + tyListSize ts
  | .table tab => 1 + tabSize tab
  | .deferred d => 1 + deferSize d
  | .literal _ => 1
  | .nominal d => 1 + deferSize d
  | .require b => 1 + tySize b

/-- Node count of a function payload. -/
def fnSize : FnTy → Nat
  | .mk gps _ ps ret _ => 1 + tyNamedListSize gps + tyListSize ps + tySize ret

/-- Node count of a tuple payload. -/
def tupSize : TupleTy → Nat
  | .mk ts _ => tyListSize ts

/-- Node count of a table payload. -/
def tabSize : TableTy → Nat
  | .mk ixs fs => tyPairListSize ixs + tyNamedListSize fs

/-- Node count of a deferred payload. -/
def deferSize : DeferTy → Nat
  | .mk _ _ args => tyOptListSize args

/-- Node count of a type list (cons cells counted). -/
def tyListSize : List Ty → Nat
  | [] => 0
  | t :: ts => 1 + tySize t + tyListSize ts

/-- Node count of a key/value pair list (cons cells counted). -/
def tyPairListSize : List (Ty × Ty) → Nat
  | [] => 0
  | (k, v) :: rest => 1 + tySize k + tySize v + tyPairListSize rest

/-- Node count of a name/type pair list (cons cells counted). -/
def tyNamedListSize : List (String × Ty) → Nat
  | [] => 0
  | (_, t) :: rest => 1 + tySize t + tyNamedListSize rest

/-- Node count of an optional-type list (cons cells counted). -/
def tyOptListSize : List (Option Ty) → Nat
  | [] => 0
  | none :: rest => 1 + tyOptListSize rest
  | some t :: rest => 1 + tySize t + tyOptListSize rest

end

/-- Splitting a list at its last element commutes with the node count. -/
theorem tyListSize_append (xs ys : List Ty) :
    tyListSize (xs ++ ys) = tyListSize xs + tyListSize ys := by
  induction xs with
  | nil => simp [tyListSize]
  | cons t rest ih => simp [tyListSize, ih]; omega

/-- Decomposition of a nonempty list into its initial part and its last
element; used to model `rhs.back()` and the splice of
`is_assignable(const TupleType&, const TupleType&)`. -/
def split_last : List Ty → Option (List Ty × Ty)
  | [] => none
  | [t] => some ([], t)
  | t :: u :: rest =>
    match split_last (u :: rest) with
    | some (init, last) => some (t :: init, last)
    | none => none

/-- Node-count accounting for `split_last`. -/
theorem split_last_size {ts init : List Ty} {last : Ty}
    (h : split_last ts = some (init, last)) :
    tyListSize ts = tyListSize init + 1 + tySize last := by
  induction ts generalizing init with
  | nil => simp [split_last] at h
  | cons t rest ih =>
    match rest with
    | [] =>
      simp [split_last] at h
      obtain ⟨h1, h2⟩ := h
      subst h1; subst h2
      simp [tyListSize]
    | u :: rest' =>
      rw [split_last] at h
      cases hsplit : split_last (u :: rest') with
      | none => rw [hsplit] at h; simp at h
      | some p =>
        obtain ⟨i, l⟩ := p
        rw [hsplit] at h
        simp at h
        obtain ⟨h1, h2⟩ := h
        subst h1; subst h2
        have hrec := ih hsplit
        have e1 : tyListSize (t :: u :: rest') = 1 + tySize t + tyListSize (u :: rest') := by
          simp [tyListSize]
        have e2 : tyListSize (t :: i) = 1 + tySize t + tyListSize i := by
          simp [tyListSize]
        omega

/-- One entry of the deferred type table, `DeferredTypeCollection::Entry`. -/
structure DeferredEntry where
  type : Ty := Ty.void
  name : String := ""
  nominals : List Nat := []
  narrowing : Bool := false

instance : Inhabited DeferredEntry := ⟨{}⟩

/-- The deferred type table, `class DeferredTypeCollection`: an
append-only vector of entries addressed by index. -/
abbrev DeferredTypeCollection := List DeferredEntry

/-- `DeferredTypeCollection::get_type`. -/
def collection_get_type (c : DeferredTypeCollection) (i : Nat) : Ty :=
  (c.getD i default).type

/-- `DeferredTypeCollection::get_name`. -/
def collection_get_name (c : DeferredTypeCollection) (i : Nat) : String :=
  (c.getD i default).name

/-- `DeferredTypeCollection::get_nominals`. -/
def collection_get_nominals (c : DeferredTypeCollection) (i : Nat) : List Nat :=
  (c.getD i default).nominals

/-- `DeferredTypeCollection::is_narrowing`. -/
def collection_is_narrowing (c : DeferredTypeCollection) (i : Nat) : Bool :=
  (c.getD i default).narrowing

/-- `DeferredTypeCollection::reserve_narrow`: appends an entry with the
narrowing marker set, returning the new collection and the new id. -/
def reserve_narrow (c : DeferredTypeCollection) (name : String) :
    DeferredTypeCollection × Nat :=
  (c ++ [{ type := Ty.void, name := name, nominals := [], narrowing := true }], c.length)

/-- `DeferredTypeCollection::set`: rewrites the `type` field of entry `i`. -/
def collection_set (c : DeferredTypeCollection) (i : Nat) (t : Ty) :
    DeferredTypeCollection :=
  c.set i { (c.getD i default) with type := t }

/-- Result of an assignability query, `struct AssignResult`: a success
flag and a message stack built bottom-up. -/
structure AssignResult where
  yes : Bool := false
  messages : List String := []
deriving DecidableEq, Repr

/-- `to_string(const AssignResult&)`: messages are prepended, producing
the stack printed innermost-last. -/
def assignResultToString (ar : AssignResult) : String :=
  ar.messages.foldl (fun r msg => msg ++ "\n" ++ r) ""

/-- `TypePrinter::to_string(const LuaType&)`. -/
def printLuaType : LuaType → String
  | .NIL => "nil"
  | .NUMBER => "number"
  | .STRING => "string"
  | .BOOLEAN => "boolean"
  | .THREAD => "thread"

/-- `TypePrinter::to_string(const LiteralType&)`. The stream formatting
of a floating payload is not modelled digit-for-digit (the payload
itself is opaque, see `NumberRep`); no statement below depends on it. -/
def printLiteral : LiteralTy → String
  | .boolean b => if b then "true" else "false"
  | .number (.integer i) => toString i
  | .number (.floating bits) => "float:" ++ toString bits
  | .string s => "'" ++ s ++ "'"

/-- State of `struct TypePrinter`: deferred types discovered while
printing (`queue`) and those already expanded (`seen`). The C++ queue
is an `unordered_map` popped in unspecified order; it is modelled FIFO. -/
structure PrinterSt where
  queue : List (Nat × DeferTy) := []
  seen : List Nat := []

mutual

/-- `TypePrinter::to_string(const Type&)`. The C++ dispatcher has no
`PRODUCT` case and throws `logic_error` there; the throw is rendered as
a sentinel string (no statement below prints a product). -/
def printTy (c : DeferredTypeCollection) (t : Ty) (st : PrinterSt) :
    String × PrinterSt :=
  match t with
  | .void => ("void", st)
  | .any => ("any", st)
  | .luatype lt => (printLuaType lt, st)
  | .function fn => printFn c fn st
  | .tuple tup => printTuple c tup st
  | .sum ts => printSum c ts st true
  | .table tab => printTable c tab st
  | .deferred d => printDefer c d st
  | .literal l => (printLiteral l, st)
  | .nominal d => (collection_get_name c d.id, st)
  | .require b =>
    let (s, st') := printTy c b st
    ("$require(" ++ s ++ ")", st')
  | .product _ => ("throw:Tag not implemented for to_string", st)

/-- `TypePrinter::to_string(const FunctionType&)`. -/
def printFn (c : DeferredTypeCollection) (fn : FnTy) (st : PrinterSt) :
    String × PrinterSt :=
  match fn with
  | .mk genparams _ params ret variadic =>
    let (gps, st1) :=
      match genparams with
      | [] => ("", st)
      | _ =>
        let (s, st') := printGenparams c genparams st true
        ("<" ++ s ++ ">", st')
    let (ps, st2) := printParams c params st1 true
    let ps := if variadic then (if params.isEmpty then ps ++ "..." else ps ++ ",...") else ps
    let (rs, st3) := printTy c ret st2
    (gps ++ "(" ++ ps ++ "):" ++ rs, st3)

/-- Comma-joined generic parameters `name:bound` of `printFn`. -/
def printGenparams (c : DeferredTypeCollection) (gps : List (String × Ty))
    (st : PrinterSt) (first : Bool) : String × PrinterSt :=
  match gps with
  | [] => ("", st)
  | (name, bound) :: rest =>
    let (s, st') := printTy c bound st
    let (srest, st'') := printGenparams c rest st' false
    ((if first then "" else ",") ++ name ++ ":" ++ s ++ srest, st'')

/-- Comma-joined `:type` parameters of `printFn`. -/
def printParams (c : DeferredTypeCollection) (ps : List Ty)
    (st : PrinterSt) (first : Bool) : String × PrinterSt :=
  match ps with
  | [] => ("", st)
  | p :: rest =>
    let (s, st') := printTy c p st
    let (srest, st'') := printParams c rest st' false
    ((if first then "" else ",") ++ ":" ++ s ++ srest, st'')

/-- `TypePrinter::to_string(const TupleType&)`. -/
def printTuple (c : DeferredTypeCollection) (tup : TupleTy) (st : PrinterSt) :
    String × PrinterSt :=
  match tup with
  | .mk types is_variadic =>
    let (s, st') := printTupleItems c types st true
    let s := if is_variadic then (if types.isEmpty then s ++ "..." else s ++ ",...") else s
    ("[" ++ s ++ "]", st')

/-- Comma-joined items of `printTuple`. -/
def printTupleItems (c : DeferredTypeCollection) (ts : List Ty)
    (st : PrinterSt) (first : Bool) : String × PrinterSt :=
  match ts with
  | [] => ("", st)
  | t :: rest =>
    let (s, st') := printTy c t st
    let (srest, st'') := printTupleItems c rest st' false
    ((if first then "" else ",") ++ s ++ srest, st'')

/-- `TypePrinter::to_string(const SumType&)`: members joined with `|`. -/
def printSum (c : DeferredTypeCollection) (ts : List Ty)
    (st : PrinterSt) (first : Bool) : String × PrinterSt :=
  match ts with
  | [] => ("", st)
  | t :: rest =>
    let (s, st') := printTy c t st
    let (srest, st'') := printSum c rest st' false
    ((if first then "" else "|") ++ s ++ srest, st'')

/-- `TypePrinter::to_string(const TableType&)`: indexes then fields,
joined with `;` inside braces. -/
def printTable (c : DeferredTypeCollection) (tab : TableTy) (st : PrinterSt) :
    String × PrinterSt :=
  match tab with
  | .mk indexes fields =>
    let (si, st') := printTableIndexes c indexes st true
    let (sf, st'') := printTableFields c fields st' indexes.isEmpty
    ("\x7b" ++ si ++ sf ++ "\x7d", st'')

/-- Semicolon-joined `[key]:val` index entries of `printTable`
(`TypePrinter::to_string(const KeyValPair&)` inlined). -/
def printTableIndexes (c : DeferredTypeCollection) (ixs : List (Ty × Ty))
    (st : PrinterSt) (first : Bool) : String × PrinterSt :=
  match ixs with
  | [] => ("", st)
  | (k, v) :: rest =>
    let (sk, st1) := printTy c k st
    let (sv, st2) := printTy c v st1
    let (srest, st3) := printTableIndexes c rest st2 false
    ((if first then "" else ";") ++ "[" ++ sk ++ "]:" ++ sv ++ srest, st3)

/-- Semicolon-joined `name:type` field entries of `printTable`. -/
def printTableFields (c : DeferredTypeCollection) (fs : List (String × Ty))
    (st : PrinterSt) (first : Bool) : String × PrinterSt :=
  match fs with
  | [] => ("", st)
  | (name, t) :: rest =>
    let (s, st') := printTy c t st
    let (srest, st'') := printTableFields c rest st' false
    ((if first then "" else ";") ++ name ++ ":" ++ s ++ srest, st'')

/-- `TypePrinter::to_string(const DeferredType&)`: queue the id if new,
print the entry's name. -/
def printDefer (c : DeferredTypeCollection) (d : DeferTy) (st : PrinterSt) :
    String × PrinterSt :=
  let st' :=
    if st.seen.contains d.id ∨ (st.queue.map Prod.fst).contains d.id then st
    else { st with queue := st.queue ++ [(d.id, d)] }
  (collection_get_name c d.id, st')

end

/-- Appendix loop of `to_string_impl`: pop each queued deferred type,
mark it seen, and append `" with name:entry"`. The C++ `while` runs
until the queue is empty; an explicit fuel (chosen large enough by
`to_string_Ty`) stands in for that termination argument. -/
def printQueueLoop (c : DeferredTypeCollection) (fuel : Nat)
    (st : PrinterSt) (acc : String) : String :=
  match fuel with
  | 0 => acc
  | fuel + 1 =>
    match st.queue with
    | [] => acc
    | (id, d) :: rest =>
      let st' : PrinterSt := { queue := rest, seen := st.seen ++ [id] }
      let (s, st'') := printTy c (collection_get_type c d.id) st'
      printQueueLoop c fuel st''
        (acc ++ " with " ++ collection_get_name c d.id ++ ":" ++ s)

/-- `to_string(const Type&)` by way of `to_string_impl`. -/
def to_string_Ty (c : DeferredTypeCollection) (t : Ty) : String :=
  let (s, st) := printTy c t { }
  printQueueLoop c (tySize t + c.foldl (fun a e => a + tySize e.type) 0 + st.queue.length + 1) st s

/-- `to_string(const LuaType&)` via `to_string_impl` (no deferred types
can occur, so no appendix). -/
def to_string_LuaType (lt : LuaType) : String := printLuaType lt

/-- Total node count of the entry types of a collection; a fuel bound
for the printer's appendix loop. -/
def collTypesSize (c : DeferredTypeCollection) : Nat :=
  c.foldl (fun a e => a + tySize e.type) 0

/-- Shared tail of the `to_string_impl` instantiations: run the
appendix loop on a printed prefix. -/
def run_to_string (c : DeferredTypeCollection) (p : String × PrinterSt) : String :=
  printQueueLoop c (collTypesSize c + 8 * (p.2.queue.length + 1)) p.2 p.1

/-- `to_string(const FunctionType&)`. -/
def to_string_FnTy (c : DeferredTypeCollection) (fn : FnTy) : String :=
  run_to_string c (printFn c fn { })

/-- `to_string(const TupleType&)`. -/
def to_string_TupleTy (c : DeferredTypeCollection) (tup : TupleTy) : String :=
  run_to_string c (printTuple c tup { })

/-- `to_string(const SumType&)`. -/
def to_string_Sum (c : DeferredTypeCollection) (ts : List Ty) : String :=
  run_to_string c (printSum c ts { } true)

/-- `to_string(const TableType&)`. -/
def to_string_TableTy (c : DeferredTypeCollection) (tab : TableTy) : String :=
  run_to_string c (printTable c tab { })

/-- `to_string(const DeferredType&)`: prints the name and then expands
the entry in the appendix. -/
def to_string_DeferTy (c : DeferredTypeCollection) (d : DeferTy) : String :=
  run_to_string c (printDefer c d { })

/-- `to_string(const LiteralType&)` (never queues a deferred type). -/
def to_string_LiteralTy (l : LiteralTy) : String := printLiteral l

/-- `to_string(const NominalType&)`: the entry's name. -/
def to_string_NominalTy (c : DeferredTypeCollection) (d : DeferTy) : String :=
  collection_get_name c d.id

/-- The `to_string_impl` instantiation at `ProductType` has no matching
`TypePrinter` member in the source; rendered as the same sentinel as
the `Type`-level dispatcher's missing-product throw. -/
def to_string_Product : String := "throw:Tag not implemented for to_string"

/-- Message text shared by every `cannot_assign` instantiation. -/
def cannot_assign_parts (ls rs : String) : String :=
  "Cannot assign `" ++ rs ++ "` to `" ++ ls ++ "`"

/-- `cannot_assign(lhs, rhs)` for two `Type`s. -/
def cannot_assign (c : DeferredTypeCollection) (lhs rhs : Ty) : String :=
  cannot_assign_parts (to_string_Ty c lhs) (to_string_Ty c rhs)

/-- Sentinel returned where the model runs out of fuel at a call site
whose C++ counterpart is not structurally recursive (deferred-type
unfolding and generic-function substitution); the C++ code either
terminates with some other result or does not terminate at all there. -/
def fuel_exhausted : AssignResult :=
  { yes := false, messages := ["model: fuel exhausted"] }

/-- `is_assignable(const LuaType&, const LuaType&)`: equality of
primitive tags. -/
def is_assignable_lua_lua (llua rlua : LuaType) : AssignResult :=
  if llua ≠ rlua then { yes := false } else { yes := true }

/-- `is_assignable(const LiteralType&, const LiteralType&)`: equal tags
compare payloads, different tags fail. (The C++ `throw` on a
NIL/THREAD-tagged literal is unreachable, see `LiteralTy`.) -/
def is_assignable_literal_literal (l r : LiteralTy) : AssignResult :=
  match l, r with
  | .boolean a, .boolean b => { yes := a == b }
  | .number a, .number b => { yes := numberRepEq a b }
  | .string a, .string b => { yes := a == b }
  | _, _ => { yes := false }

/-- `is_assignable(const NominalType&, const NominalType&)`: identity
of the deferred ids. -/
def is_assignable_nominal_nominal (c : DeferredTypeCollection)
    (l r : DeferTy) : AssignResult :=
  if l.id ≠ r.id then
    { yes := false,
      messages := [cannot_assign_parts (to_string_NominalTy c l) (to_string_NominalTy c r)] }
  else { yes := true }

/-- `is_assignable(const Type&, VoidType)`: only a `Void` left-hand
side accepts `Void`. -/
def is_assignable_void (c : DeferredTypeCollection) (lhs : Ty) : AssignResult :=
  match lhs with
  | .void => { yes := true }
  | _ => { yes := false, messages := [cannot_assign c lhs .void] }

/-- `TypePrinter::to_string(const KeyValPair&)` lifted to a standalone
printer step. -/
def printKvp (c : DeferredTypeCollection) (k v : Ty) (st : PrinterSt) :
    String × PrinterSt :=
  let (sk, st1) := printTy c k st
  let (sv, st2) := printTy c v st1
  ("[" ++ sk ++ "]:" ++ sv, st2)

/-- `to_string(const KeyValPair&)`. -/
def to_string_KeyValPair (c : DeferredTypeCollection) (k v : Ty) : String :=
  run_to_string c (printKvp c k v { })

/-- Abbreviations for the recurring argument types of the assignability
family below; they keep the packed domain of the well-founded
translation compact. -/
abbrev DTC := DeferredTypeCollection

/-- A vector of types. -/
abbrev TyL := List Ty

/-- A vector of table index key/value pairs. -/
abbrev KvL := List (Ty × Ty)

/-- A vector of named fields or generic parameters. -/
abbrev FdL := List (String × Ty)

/-- A vector of optional types (generic arguments). -/
abbrev OTyL := List (Option Ty)

/-- An optional generic-parameter typing callback. -/
abbrev GpF := Option (String → Ty)

set_option maxHeartbeats 3200000

mutual

/-- `is_assignable(const Type&, const Type&)` (type.hpp:1087): dispatch
on the right-hand tag, then push the `cannot_assign` crumb on failure.
The missing `REQUIRE` case falls into the C++ `default`. -/
def is_assignable (c : DTC) (f : Nat) (lhs rhs : Ty) :
    AssignResult :=
  let r : AssignResult :=
    match rhs with
    | .any => { yes := true }
    | .void => is_assignable_void c lhs
    | .luatype rlua => is_assignable_lua c f lhs rlua
    | .function rfn => is_assignable_fn c f lhs rfn
    | .tuple rtup => is_assignable_tuple c f lhs rtup
    | .sum ms => is_assignable_rsum c f lhs ms
    | .table rtab => is_assignable_table c f lhs rtab
    | .deferred rd => is_assignable_rdefer c f lhs rd
    | .literal rlit => is_assignable_rliteral c f lhs rlit
    | .nominal rnom => is_assignable_rnominal c f lhs rnom
    | .product rts => is_assignable_rproduct c f lhs rts
    | .require _ => { yes := false, messages := ["Tag not implemented for assignment"] }
  if !r.yes then { r with messages := r.messages ++ [cannot_assign c lhs rhs] } else r

termination_by (f, 8 * (tySize lhs + tySize rhs))
decreasing_by
all_goals simp_wf
all_goals first
| (apply Prod.Lex.left
   omega)
| (apply Prod.Lex.right
   subst_vars
   try simp only [tySize, fnSize, tupSize, tabSize, deferSize, tyListSize, tyPairListSize, tyNamedListSize, tyOptListSize, tyListSize_append]
   try simp only [tySize, fnSize, tupSize, tabSize, deferSize, tyListSize, tyPairListSize, tyNamedListSize, tyOptListSize, tyListSize_append] at *
   omega)

/-- `is_assignable(const Type&, const LuaType&)` (type.hpp:808). The
`DEFERRED` arm inlines the `is_assignable(const DeferredType&, RHS)`
template: reduce, then retry (fuel is consumed there). -/
def is_assignable_lua (c : DTC) (f : Nat) (lhs : Ty)
    (rlua : LuaType) : AssignResult :=
  match lhs with
  | .any => { yes := true }
  | .luatype llua => is_assignable_lua_lua llua rlua
  | .sum ts =>
    (sum_assignable_lua c f ts rlua).getD
      { yes := false,
        messages := [cannot_assign_parts (to_string_Sum c ts) (to_string_LuaType rlua)] }
  | .deferred ld =>
    match f with
    | 0 => fuel_exhausted
    | f + 1 => is_assignable_lua c f (reduce_deferred c f ld none) rlua
  | _ => { yes := false }

termination_by (f, 8 * tySize lhs + 2)
decreasing_by
all_goals simp_wf
all_goals first
| (apply Prod.Lex.left
   omega)
| (apply Prod.Lex.right
   subst_vars
   try simp only [tySize, fnSize, tupSize, tabSize, deferSize, tyListSize, tyPairListSize, tyNamedListSize, tyOptListSize, tyListSize_append]
   try simp only [tySize, fnSize, tupSize, tabSize, deferSize, tyListSize, tyPairListSize, tyNamedListSize, tyOptListSize, tyListSize_append] at *
   omega)

/-- `is_assignable(const SumType&, RHS)` instantiated at `LuaType`:
first member that accepts wins; `none` means all failed. -/
def sum_assignable_lua (c : DTC) (f : Nat) (ts : TyL)
    (rlua : LuaType) : Option AssignResult :=
  match ts with
  | [] => none
  | t :: rest =>
    let r := is_assignable_lua c f t rlua
    if r.yes then some r else sum_assignable_lua c f rest rlua

termination_by (f, 8 * tyListSize ts + 6)
decreasing_by
all_goals simp_wf
all_goals first
| (apply Prod.Lex.left
   omega)
| (apply Prod.Lex.right
   subst_vars
   try simp only [tySize, fnSize, tupSize, tabSize, deferSize, tyListSize, tyPairListSize, tyNamedListSize, tyOptListSize, tyListSize_append]
   try simp only [tySize, fnSize, tupSize, tabSize, deferSize, tyListSize, tyPairListSize, tyNamedListSize, tyOptListSize, tyListSize_append] at *
   omega)

/-- `is_assignable(const Type&, const FunctionType&)` (type.hpp:1007). -/
def is_assignable_fn (c : DTC) (f : Nat) (lhs : Ty)
    (rfn : FnTy) : AssignResult :=
  match lhs with
  | .any => { yes := true }
  | .function lfn => is_assignable_fn_fn c f lfn rfn
  | .sum ts =>
    (sum_assignable_fn c f ts rfn).getD
      { yes := false,
        messages := [cannot_assign_parts (to_string_Sum c ts) (to_string_FnTy c rfn)] }
  | .deferred ld =>
    match f with
    | 0 => fuel_exhausted
    | f + 1 => is_assignable_fn c f (reduce_deferred c f ld none) rfn
  | _ => { yes := false }

termination_by (f, 8 * (tySize lhs + fnSize rfn) + 2)
decreasing_by
all_goals simp_wf
all_goals first
| (apply Prod.Lex.left
   omega)
| (apply Prod.Lex.right
   subst_vars
   try simp only [tySize, fnSize, tupSize, tabSize, deferSize, tyListSize, tyPairListSize, tyNamedListSize, tyOptListSize, tyListSize_append]
   try simp only [tySize, fnSize, tupSize, tabSize, deferSize, tyListSize, tyPairListSize, tyNamedListSize, tyOptListSize, tyListSize_append] at *
   omega)

/-- `is_assignable(const SumType&, RHS)` instantiated at `FunctionType`. -/
def sum_assignable_fn (c : DTC) (f : Nat) (ts : TyL)
    (rfn : FnTy) : Option AssignResult :=
  match ts with
  | [] => none
  | t :: rest =>
    let r := is_assignable_fn c f t rfn
    if r.yes then some r else sum_assignable_fn c f rest rfn

termination_by (f, 8 * (tyListSize ts + fnSize rfn) + 6)
decreasing_by
all_goals simp_wf
all_goals first
| (apply Prod.Lex.left
   omega)
| (apply Prod.Lex.right
   subst_vars
   try simp only [tySize, fnSize, tupSize, tabSize, deferSize, tyListSize, tyPairListSize, tyNamedListSize, tyOptListSize, tyListSize_append]
   try simp only [tySize, fnSize, tupSize, tabSize, deferSize, tyListSize, tyPairListSize, tyNamedListSize, tyOptListSize, tyListSize_append] at *
   omega)

/-- `is_assignable(const FunctionType&, const FunctionType&)`
(type.hpp:818): arity guard, contravariant parameters, covariant
return. Generic parameters are substituted by their bounds through
`apply_genparams`; when both genparam vectors are empty that
substitution is the identity (`apply_genparams` returns its argument
unchanged), which is the fuel-free branch here. Note the source passes
`lfunc.nominals` for BOTH return substitutions (type.hpp:856). -/
def is_assignable_fn_fn (c : DTC) (f : Nat)
    (lfn rfn : FnTy) : AssignResult :=
  match lfn, rfn with
  | .mk lgps lnoms lps lret _, .mk rgps rnoms rps rret _ =>
    if rps.length < lps.length then
      { yes := false, messages := ["Not enough parameters."] }
    else
      let r := fn_params_loop c f lgps rgps lnoms rnoms 0 lps rps
      if !r.yes then r
      else
        let rr :=
          if lgps.isEmpty && rgps.isEmpty then
            is_assignable c f lret rret
          else
            match f with
            | 0 => fuel_exhausted
            | f + 1 =>
              is_assignable c f
                (apply_genparams c f (lgps.map (fun g => some g.2)) lnoms none lret)
                (apply_genparams c f (rgps.map (fun g => some g.2)) lnoms none rret)
        if !rr.yes then { rr with messages := rr.messages ++ ["At return type"] } else rr

termination_by (f, 8 * (fnSize lfn + fnSize rfn) + 6)
decreasing_by
all_goals simp_wf
all_goals first
| (apply Prod.Lex.left
   omega)
| (apply Prod.Lex.right
   subst_vars
   try simp only [tySize, fnSize, tupSize, tabSize, deferSize, tyListSize, tyPairListSize, tyNamedListSize, tyOptListSize, tyListSize_append]
   try simp only [tySize, fnSize, tupSize, tabSize, deferSize, tyListSize, tyPairListSize, tyNamedListSize, tyOptListSize, tyListSize_append] at *
   omega)

/-- Parameter loop of `is_assignable(const FunctionType&, const
FunctionType&)`: right-hand parameters drive the loop (contravariant
check while left-hand parameters last, `Nil`-acceptance beyond). -/
def fn_params_loop (c : DTC) (f : Nat)
    (lgps rgps : FdL) (lnoms rnoms : List Nat) (i : Nat)
    (lps rps : TyL) : AssignResult :=
  match lps, rps with
  | _, [] => { yes := true }
  | lp :: lrest, rp :: rrest =>
    let r :=
      if lgps.isEmpty && rgps.isEmpty then
        is_assignable c f rp lp
      else
        match f with
        | 0 => fuel_exhausted
        | f + 1 =>
          is_assignable c f
            (apply_genparams c f (rgps.map (fun g => some g.2)) rnoms none rp)
            (apply_genparams c f (lgps.map (fun g => some g.2)) lnoms none lp)
    if !r.yes then { r with messages := r.messages ++ ["At parameter " ++ toString i] }
    else fn_params_loop c f lgps rgps lnoms rnoms (i + 1) lrest rrest
  | [], rp :: rrest =>
    let r :=
      if lgps.isEmpty && rgps.isEmpty then
        is_assignable_lua c f rp .NIL
      else
        match f with
        | 0 => fuel_exhausted
        | f + 1 =>
          is_assignable_lua c f
            (apply_genparams c f (rgps.map (fun g => some g.2)) rnoms none rp) .NIL
    if !r.yes then { r with messages := r.messages ++ ["At parameter " ++ toString i] }
    else fn_params_loop c f lgps rgps lnoms rnoms (i + 1) [] rrest

termination_by (f, 8 * (tyNamedListSize lgps + tyNamedListSize rgps + tyListSize lps + tyListSize rps) + 4)
decreasing_by
all_goals simp_wf
all_goals first
| (apply Prod.Lex.left
   omega)
| (apply Prod.Lex.right
   subst_vars
   try simp only [tySize, fnSize, tupSize, tabSize, deferSize, tyListSize, tyPairListSize, tyNamedListSize, tyOptListSize, tyListSize_append]
   try simp only [tySize, fnSize, tupSize, tabSize, deferSize, tyListSize, tyPairListSize, tyNamedListSize, tyOptListSize, tyListSize_append] at *
   omega)

/-- `is_assignable(const Type&, const TupleType&)` (type.hpp:1027). -/
def is_assignable_tuple (c : DTC) (f : Nat) (lhs : Ty)
    (rtup : TupleTy) : AssignResult :=
  match lhs with
  | .any => { yes := true }
  | .tuple ltup => is_assignable_tuple_tuple c f ltup rtup
  | .sum ts =>
    (sum_assignable_tuple c f ts rtup).getD
      { yes := false,
        messages := [cannot_assign_parts (to_string_Sum c ts) (to_string_TupleTy c rtup)] }
  | .deferred ld =>
    match f with
    | 0 => fuel_exhausted
    | f + 1 => is_assignable_tuple c f (reduce_deferred c f ld none) rtup
  | _ => { yes := false }

termination_by (f, 8 * (tySize lhs + tupSize rtup) + 2)
decreasing_by
all_goals simp_wf
all_goals first
| (apply Prod.Lex.left
   omega)
| (apply Prod.Lex.right
   subst_vars
   try simp only [tySize, fnSize, tupSize, tabSize, deferSize, tyListSize, tyPairListSize, tyNamedListSize, tyOptListSize, tyListSize_append]
   try simp only [tySize, fnSize, tupSize, tabSize, deferSize, tyListSize, tyPairListSize, tyNamedListSize, tyOptListSize, tyListSize_append] at *
   omega)

/-- `is_assignable(const SumType&, RHS)` instantiated at `TupleType`. -/
def sum_assignable_tuple (c : DTC) (f : Nat) (ts : TyL)
    (rtup : TupleTy) : Option AssignResult :=
  match ts with
  | [] => none
  | t :: rest =>
    let r := is_assignable_tuple c f t rtup
    if r.yes then some r else sum_assignable_tuple c f rest rtup

termination_by (f, 8 * (tyListSize ts + tupSize rtup) + 6)
decreasing_by
all_goals simp_wf
all_goals first
| (apply Prod.Lex.left
   omega)
| (apply Prod.Lex.right
   subst_vars
   try simp only [tySize, fnSize, tupSize, tabSize, deferSize, tyListSize, tyPairListSize, tyNamedListSize, tyOptListSize, tyListSize_append]
   try simp only [tySize, fnSize, tupSize, tabSize, deferSize, tyListSize, tyPairListSize, tyNamedListSize, tyOptListSize, tyListSize_append] at *
   omega)

/-- `is_assignable(const TupleType&, const TupleType&)` (type.hpp:867):
when the right-hand side's last element is itself a tuple, splice it in
(carrying its variadic flag) and retry; otherwise compare positionally
(`split_last` renders the C++ `rhs.back()` / `rhs.begin(), rhs.end()-1`
decomposition). -/
def is_assignable_tuple_tuple (c : DTC) (f : Nat)
    (ltup rtup : TupleTy) : AssignResult :=
  match ltup, rtup with
  | .mk lts lvar, .mk rts rvar =>
    match h : split_last rts with
    | some (init, .tuple (.mk inner innerVar)) =>
      is_assignable_tuple_tuple c f (.mk lts lvar) (.mk (init ++ inner) innerVar)
    | _ => tuple_items_loop c f 0 lts rts lvar rvar

termination_by (f, 8 * (tupSize ltup + tupSize rtup) + 6)
decreasing_by
all_goals simp_wf
all_goals first
| (apply Prod.Lex.left
   omega)
| (apply Prod.Lex.right
   have hs := split_last_size h
   simp only [tySize, fnSize, tupSize, tabSize, deferSize, tyListSize, tyPairListSize, tyNamedListSize, tyOptListSize, tyListSize_append] at hs ⊢
   omega)
| (apply Prod.Lex.right
   subst_vars
   try simp only [tySize, fnSize, tupSize, tabSize, deferSize, tyListSize, tyPairListSize, tyNamedListSize, tyOptListSize, tyListSize_append]
   try simp only [tySize, fnSize, tupSize, tabSize, deferSize, tyListSize, tyPairListSize, tyNamedListSize, tyOptListSize, tyListSize_append] at *
   omega)

/-- Positional comparison of `is_assignable(const TupleType&, const
TupleType&)`: matched prefix, then the arity/variadic edge cases. -/
def tuple_items_loop (c : DTC) (f : Nat) (i : Nat)
    (lts rts : TyL) (lvar rvar : Bool) : AssignResult :=
  match lts, rts with
  | lt :: lrest, rt :: rrest =>
    let r := is_assignable c f lt rt
    if !r.yes then { r with messages := r.messages ++ ["At item " ++ toString (i + 1)] }
    else tuple_items_loop c f (i + 1) lrest rrest lvar rvar
  | lt :: lrest, [] =>
    if rvar then { yes := true } else tuple_nil_loop c f (lt :: lrest)
  | [], _ :: _ =>
    if lvar then { yes := true }
    else { yes := false, messages := ["Too many values on right-hand size"] }
  | [], [] => { yes := true }

termination_by (f, 8 * (tyListSize lts + tyListSize rts) + 4)
decreasing_by
all_goals simp_wf
all_goals first
| (apply Prod.Lex.left
   omega)
| (apply Prod.Lex.right
   subst_vars
   try simp only [tySize, fnSize, tupSize, tabSize, deferSize, tyListSize, tyPairListSize, tyNamedListSize, tyOptListSize, tyListSize_append]
   try simp only [tySize, fnSize, tupSize, tabSize, deferSize, tyListSize, tyPairListSize, tyNamedListSize, tyOptListSize, tyListSize_append] at *
   omega)

/-- Excess left-hand tuple positions must accept `Nil` (type.hpp:888). -/
def tuple_nil_loop (c : DTC) (f : Nat) (ls : TyL) :
    AssignResult :=
  match ls with
  | [] => { yes := true }
  | l :: rest =>
    let r := is_assignable_lua c f l .NIL
    if !r.yes then { r with messages := r.messages ++ ["Not enough values on right-hand side"] }
    else tuple_nil_loop c f rest

termination_by (f, 8 * tyListSize ls + 3)
decreasing_by
all_goals simp_wf
all_goals first
| (apply Prod.Lex.left
   omega)
| (apply Prod.Lex.right
   subst_vars
   try simp only [tySize, fnSize, tupSize, tabSize, deferSize, tyListSize, tyPairListSize, tyNamedListSize, tyOptListSize, tyListSize_append]
   try simp only [tySize, fnSize, tupSize, tabSize, deferSize, tyListSize, tyPairListSize, tyNamedListSize, tyOptListSize, tyListSize_append] at *
   omega)

/-- `is_assignable(const Type&, const SumType&)` (type.hpp:1017): every
member of the right-hand sum must be accepted. -/
def is_assignable_rsum (c : DTC) (f : Nat) (lhs : Ty)
    (ms : TyL) : AssignResult :=
  match ms with
  | [] => { yes := true }
  | m :: rest =>
    let r := is_assignable c f lhs m
    if !r.yes then r else is_assignable_rsum c f lhs rest

termination_by (f, 8 * (tySize lhs + tyListSize ms) + 2)
decreasing_by
all_goals simp_wf
all_goals first
| (apply Prod.Lex.left
   omega)
| (apply Prod.Lex.right
   subst_vars
   try simp only [tySize, fnSize, tupSize, tabSize, deferSize, tyListSize, tyPairListSize, tyNamedListSize, tyOptListSize, tyListSize_append]
   try simp only [tySize, fnSize, tupSize, tabSize, deferSize, tyListSize, tyPairListSize, tyNamedListSize, tyOptListSize, tyListSize_append] at *
   omega)

/-- `is_assignable(const Type&, const TableType&)` (type.hpp:1037). -/
def is_assignable_table (c : DTC) (f : Nat) (lhs : Ty)
    (rtab : TableTy) : AssignResult :=
  match lhs with
  | .any => { yes := true }
  | .table ltab => is_assignable_table_table c f ltab rtab
  | .sum ts =>
    (sum_assignable_table c f ts rtab).getD
      { yes := false,
        messages := [cannot_assign_parts (to_string_Sum c ts) (to_string_TableTy c rtab)] }
  | .deferred ld =>
    match f with
    | 0 => fuel_exhausted
    | f + 1 => is_assignable_table c f (reduce_deferred c f ld none) rtab
  | _ => { yes := false }

termination_by (f, 8 * (tySize lhs + tabSize rtab) + 2)
decreasing_by
all_goals simp_wf
all_goals first
| (apply Prod.Lex.left
   omega)
| (apply Prod.Lex.right
   subst_vars
   try simp only [tySize, fnSize, tupSize, tabSize, deferSize, tyListSize, tyPairListSize, tyNamedListSize, tyOptListSize, tyListSize_append]
   try simp only [tySize, fnSize, tupSize, tabSize, deferSize, tyListSize, tyPairListSize, tyNamedListSize, tyOptListSize, tyListSize_append] at *
   omega)

/-- `is_assignable(const SumType&, RHS)` instantiated at `TableType`. -/
def sum_assignable_table (c : DTC) (f : Nat) (ts : TyL)
    (rtab : TableTy) : Option AssignResult :=
  match ts with
  | [] => none
  | t :: rest =>
    let r := is_assignable_table c f t rtab
    if r.yes then some r else sum_assignable_table c f rest rtab

termination_by (f, 8 * (tyListSize ts + tabSize rtab) + 6)
decreasing_by
all_goals simp_wf
all_goals first
| (apply Prod.Lex.left
   omega)
| (apply Prod.Lex.right
   subst_vars
   try simp only [tySize, fnSize, tupSize, tabSize, deferSize, tyListSize, tyPairListSize, tyNamedListSize, tyOptListSize, tyListSize_append]
   try simp only [tySize, fnSize, tupSize, tabSize, deferSize, tyListSize, tyPairListSize, tyNamedListSize, tyOptListSize, tyListSize_append] at *
   omega)

/-- `is_assignable(const TableType&, const TableType&)` (type.hpp:905):
index compatibility (including string-keyed indexes against fields),
then field-by-field comparison. -/
def is_assignable_table_table (c : DTC) (f : Nat)
    (ltab rtab : TableTy) : AssignResult :=
  match ltab, rtab with
  | .mk lixs lfs, .mk rixs rfs =>
    let r := table_indexes_loop c f lixs rixs rfs
    if !r.yes then r else table_lfields_loop c f lfs rfs

termination_by (f, 8 * (tabSize ltab + tabSize rtab) + 6)
decreasing_by
all_goals simp_wf
all_goals first
| (apply Prod.Lex.left
   omega)
| (apply Prod.Lex.right
   subst_vars
   try simp only [tySize, fnSize, tupSize, tabSize, deferSize, tyListSize, tyPairListSize, tyNamedListSize, tyOptListSize, tyListSize_append]
   try simp only [tySize, fnSize, tupSize, tabSize, deferSize, tyListSize, tyPairListSize, tyNamedListSize, tyOptListSize, tyListSize_append] at *
   omega)

/-- Outer loop over the left-hand table's indexes (type.hpp:906-926). -/
def table_indexes_loop (c : DTC) (f : Nat)
    (lixs rixs : KvL) (rfs : FdL) : AssignResult :=
  match lixs with
  | [] => { yes := true }
  | (lk, lv) :: rest =>
    let r := table_rindexes_loop c f lk lv rixs
    if !r.yes then r
    else
      let r2 :=
        if (is_assignable_lua c f lk .STRING).yes then table_rfields_loop c f lk lv rfs
        else { yes := true }
      if !r2.yes then r2 else table_indexes_loop c f rest rixs rfs

termination_by (f, 8 * (tyPairListSize lixs + tyPairListSize rixs + tyNamedListSize rfs) + 5)
decreasing_by
all_goals simp_wf
all_goals first
| (apply Prod.Lex.left
   omega)
| (apply Prod.Lex.right
   subst_vars
   try simp only [tySize, fnSize, tupSize, tabSize, deferSize, tyListSize, tyPairListSize, tyNamedListSize, tyOptListSize, tyListSize_append]
   try simp only [tySize, fnSize, tupSize, tabSize, deferSize, tyListSize, tyPairListSize, tyNamedListSize, tyOptListSize, tyListSize_append] at *
   omega)

/-- Right-hand indexes whose key accepts the left key must deliver an
assignable value (type.hpp:907-915). -/
def table_rindexes_loop (c : DTC) (f : Nat) (lk lv : Ty)
    (rixs : KvL) : AssignResult :=
  match rixs with
  | [] => { yes := true }
  | (rk, rv) :: rest =>
    if (is_assignable c f rk lk).yes then
      let r := is_assignable c f lv rv
      if !r.yes then
        { r with messages := r.messages ++
            ["When checking index `" ++ to_string_KeyValPair c lk lv ++
             "` against `" ++ to_string_KeyValPair c rk rv ++ "`"] }
      else table_rindexes_loop c f lk lv rest
    else table_rindexes_loop c f lk lv rest

termination_by (f, 8 * (tySize lk + tySize lv + tyPairListSize rixs) + 4)
decreasing_by
all_goals simp_wf
all_goals first
| (apply Prod.Lex.left
   omega)
| (apply Prod.Lex.right
   subst_vars
   try simp only [tySize, fnSize, tupSize, tabSize, deferSize, tyListSize, tyPairListSize, tyNamedListSize, tyOptListSize, tyListSize_append]
   try simp only [tySize, fnSize, tupSize, tabSize, deferSize, tyListSize, tyPairListSize, tyNamedListSize, tyOptListSize, tyListSize_append] at *
   omega)

/-- When the left index key accepts `String`, every right-hand field
type must flow into the left index value (type.hpp:917-925). -/
def table_rfields_loop (c : DTC) (f : Nat) (lk lv : Ty)
    (rfs : FdL) : AssignResult :=
  match rfs with
  | [] => { yes := true }
  | (name, ft) :: rest =>
    let r := is_assignable c f lv ft
    if !r.yes then
      { r with messages := r.messages ++
          ["When checking table index `" ++ to_string_KeyValPair c lk lv ++
           "` against field `" ++ name ++ "`"] }
    else table_rfields_loop c f lk lv rest

termination_by (f, 8 * (tySize lk + tySize lv + tyNamedListSize rfs) + 4)
decreasing_by
all_goals simp_wf
all_goals first
| (apply Prod.Lex.left
   omega)
| (apply Prod.Lex.right
   subst_vars
   try simp only [tySize, fnSize, tupSize, tabSize, deferSize, tyListSize, tyPairListSize, tyNamedListSize, tyOptListSize, tyListSize_append]
   try simp only [tySize, fnSize, tupSize, tabSize, deferSize, tyListSize, tyPairListSize, tyNamedListSize, tyOptListSize, tyListSize_append] at *
   omega)

/-- Loop over the left-hand table's fields (type.hpp:928-950). -/
def table_lfields_loop (c : DTC) (f : Nat)
    (lfs rfs : FdL) : AssignResult :=
  match lfs with
  | [] => { yes := true }
  | (name, lt) :: rest =>
    let r := table_field_find c f name lt rfs
    if !r.yes then r else table_lfields_loop c f rest rfs

termination_by (f, 8 * (tyNamedListSize lfs + tyNamedListSize rfs) + 4)
decreasing_by
all_goals simp_wf
all_goals first
| (apply Prod.Lex.left
   omega)
| (apply Prod.Lex.right
   subst_vars
   try simp only [tySize, fnSize, tupSize, tabSize, deferSize, tyListSize, tyPairListSize, tyNamedListSize, tyOptListSize, tyListSize_append]
   try simp only [tySize, fnSize, tupSize, tabSize, deferSize, tyListSize, tyPairListSize, tyNamedListSize, tyOptListSize, tyListSize_append] at *
   omega)

/-- Find the first same-named right-hand field and compare; a missing
field must accept `Nil` (type.hpp:931-949; the stray backquote in the
"At field" message is the source's). -/
def table_field_find (c : DTC) (f : Nat) (lname : String)
    (lt : Ty) (rfs : FdL) : AssignResult :=
  match rfs with
  | [] =>
    let r := is_assignable_lua c f lt .NIL
    if !r.yes then
      { r with messages := r.messages ++
          ["Field '" ++ lname ++ "' is missing in right-hand side"] }
    else { yes := true }
  | (rname, rt) :: rest =>
    if lname == rname then
      let r := is_assignable c f lt rt
      if !r.yes then { r with messages := r.messages ++ ["At field '" ++ lname ++ "`"] }
      else { yes := true }
    else table_field_find c f lname lt rest

termination_by (f, 8 * (tySize lt + tyNamedListSize rfs) + 3)
decreasing_by
all_goals simp_wf
all_goals first
| (apply Prod.Lex.left
   omega)
| (apply Prod.Lex.right
   subst_vars
   try simp only [tySize, fnSize, tupSize, tabSize, deferSize, tyListSize, tyPairListSize, tyNamedListSize, tyOptListSize, tyListSize_append]
   try simp only [tySize, fnSize, tupSize, tabSize, deferSize, tyListSize, tyPairListSize, tyNamedListSize, tyOptListSize, tyListSize_append] at *
   omega)

/-- `is_assignable(const Type&, const DeferredType&)` (type.hpp:1047). -/
def is_assignable_rdefer (c : DTC) (f : Nat) (lhs : Ty)
    (rd : DeferTy) : AssignResult :=
  match lhs with
  | .any => { yes := true }
  | .sum ts =>
    (sum_assignable_defer c f ts rd).getD
      { yes := false,
        messages := [cannot_assign_parts (to_string_Sum c ts) (to_string_DeferTy c rd)] }
  | .deferred ld => is_assignable_defer_defer c f ld rd
  | other =>
    match f with
    | 0 => fuel_exhausted
    | f + 1 => is_assignable c f other (reduce_deferred c f rd none)

termination_by (f, 8 * (tySize lhs + deferSize rd) + 2)
decreasing_by
all_goals simp_wf
all_goals first
| (apply Prod.Lex.left
   omega)
| (apply Prod.Lex.right
   subst_vars
   try simp only [tySize, fnSize, tupSize, tabSize, deferSize, tyListSize, tyPairListSize, tyNamedListSize, tyOptListSize, tyListSize_append]
   try simp only [tySize, fnSize, tupSize, tabSize, deferSize, tyListSize, tyPairListSize, tyNamedListSize, tyOptListSize, tyListSize_append] at *
   omega)

/-- `is_assignable(const SumType&, RHS)` instantiated at `DeferredType`. -/
def sum_assignable_defer (c : DTC) (f : Nat) (ts : TyL)
    (rd : DeferTy) : Option AssignResult :=
  match ts with
  | [] => none
  | t :: rest =>
    let r := is_assignable_rdefer c f t rd
    if r.yes then some r else sum_assignable_defer c f rest rd

termination_by (f, 8 * (tyListSize ts + deferSize rd) + 6)
decreasing_by
all_goals simp_wf
all_goals first
| (apply Prod.Lex.left
   omega)
| (apply Prod.Lex.right
   subst_vars
   try simp only [tySize, fnSize, tupSize, tabSize, deferSize, tyListSize, tyPairListSize, tyNamedListSize, tyOptListSize, tyListSize_append]
   try simp only [tySize, fnSize, tupSize, tabSize, deferSize, tyListSize, tyPairListSize, tyNamedListSize, tyOptListSize, tyListSize_append] at *
   omega)

/-- `is_assignable(const DeferredType&, const DeferredType&)`
(type.hpp:955): identical collection and id succeed outright, otherwise
reduce the left side. -/
def is_assignable_defer_defer (c : DTC) (f : Nat)
    (ld rd : DeferTy) : AssignResult :=
  if ld.collection == rd.collection && ld.id == rd.id then { yes := true }
  else
    match f with
    | 0 => fuel_exhausted
    | f + 1 => is_assignable_rdefer c f (reduce_deferred c f ld none) rd

termination_by (f, 8 * (deferSize ld + deferSize rd) + 6)
decreasing_by
all_goals simp_wf
all_goals first
| (apply Prod.Lex.left
   omega)
| (apply Prod.Lex.right
   subst_vars
   try simp only [tySize, fnSize, tupSize, tabSize, deferSize, tyListSize, tyPairListSize, tyNamedListSize, tyOptListSize, tyListSize_append]
   try simp only [tySize, fnSize, tupSize, tabSize, deferSize, tyListSize, tyPairListSize, tyNamedListSize, tyOptListSize, tyListSize_append] at *
   omega)

/-- `is_assignable(const Type&, const LiteralType&)` (type.hpp:1056):
matching literals compare payloads, otherwise delegate to the
underlying primitive. -/
def is_assignable_rliteral (c : DTC) (f : Nat) (lhs : Ty)
    (rlit : LiteralTy) : AssignResult :=
  match lhs with
  | .any => { yes := true }
  | .literal llit => is_assignable_literal_literal llit rlit
  | .sum ts =>
    (sum_assignable_literal c f ts rlit).getD
      { yes := false,
        messages := [cannot_assign_parts (to_string_Sum c ts) (to_string_LiteralTy rlit)] }
  | .deferred ld =>
    match f with
    | 0 => fuel_exhausted
    | f + 1 => is_assignable_rliteral c f (reduce_deferred c f ld none) rlit
  | other => is_assignable_lua c f other rlit.underlying_type

termination_by (f, 8 * tySize lhs + 3)
decreasing_by
all_goals simp_wf
all_goals first
| (apply Prod.Lex.left
   omega)
| (apply Prod.Lex.right
   subst_vars
   try simp only [tySize, fnSize, tupSize, tabSize, deferSize, tyListSize, tyPairListSize, tyNamedListSize, tyOptListSize, tyListSize_append]
   try simp only [tySize, fnSize, tupSize, tabSize, deferSize, tyListSize, tyPairListSize, tyNamedListSize, tyOptListSize, tyListSize_append] at *
   omega)

/-- `is_assignable(const SumType&, RHS)` instantiated at `LiteralType`. -/
def sum_assignable_literal (c : DTC) (f : Nat) (ts : TyL)
    (rlit : LiteralTy) : Option AssignResult :=
  match ts with
  | [] => none
  | t :: rest =>
    let r := is_assignable_rliteral c f t rlit
    if r.yes then some r else sum_assignable_literal c f rest rlit

termination_by (f, 8 * tyListSize ts + 6)
decreasing_by
all_goals simp_wf
all_goals first
| (apply Prod.Lex.left
   omega)
| (apply Prod.Lex.right
   subst_vars
   try simp only [tySize, fnSize, tupSize, tabSize, deferSize, tyListSize, tyPairListSize, tyNamedListSize, tyOptListSize, tyListSize_append]
   try simp only [tySize, fnSize, tupSize, tabSize, deferSize, tyListSize, tyPairListSize, tyNamedListSize, tyOptListSize, tyListSize_append] at *
   omega)

/-- `is_assignable(const Type&, const NominalType&)` (type.hpp:1066):
nominal identity, otherwise compare against the nominal's deferred
reference. -/
def is_assignable_rnominal (c : DTC) (f : Nat) (lhs : Ty)
    (rnom : DeferTy) : AssignResult :=
  match lhs with
  | .any => { yes := true }
  | .nominal lnom => is_assignable_nominal_nominal c lnom rnom
  | .sum ts =>
    (sum_assignable_nominal c f ts rnom).getD
      { yes := false,
        messages := [cannot_assign_parts (to_string_Sum c ts) (to_string_NominalTy c rnom)] }
  | .deferred ld =>
    match f with
    | 0 => fuel_exhausted
    | f + 1 => is_assignable_rnominal c f (reduce_deferred c f ld none) rnom
  | other => is_assignable_rdefer c f other rnom

termination_by (f, 8 * (tySize lhs + deferSize rnom) + 3)
decreasing_by
all_goals simp_wf
all_goals first
| (apply Prod.Lex.left
   omega)
| (apply Prod.Lex.right
   subst_vars
   try simp only [tySize, fnSize, tupSize, tabSize, deferSize, tyListSize, tyPairListSize, tyNamedListSize, tyOptListSize, tyListSize_append]
   try simp only [tySize, fnSize, tupSize, tabSize, deferSize, tyListSize, tyPairListSize, tyNamedListSize, tyOptListSize, tyListSize_append] at *
   omega)

/-- `is_assignable(const SumType&, RHS)` instantiated at `NominalType`. -/
def sum_assignable_nominal (c : DTC) (f : Nat) (ts : TyL)
    (rnom : DeferTy) : Option AssignResult :=
  match ts with
  | [] => none
  | t :: rest =>
    let r := is_assignable_rnominal c f t rnom
    if r.yes then some r else sum_assignable_nominal c f rest rnom

termination_by (f, 8 * (tyListSize ts + deferSize rnom) + 6)
decreasing_by
all_goals simp_wf
all_goals first
| (apply Prod.Lex.left
   omega)
| (apply Prod.Lex.right
   subst_vars
   try simp only [tySize, fnSize, tupSize, tabSize, deferSize, tyListSize, tyPairListSize, tyNamedListSize, tyOptListSize, tyListSize_append]
   try simp only [tySize, fnSize, tupSize, tabSize, deferSize, tyListSize, tyPairListSize, tyNamedListSize, tyOptListSize, tyListSize_append] at *
   omega)

/-- `is_assignable(const Type&, const ProductType&)` (type.hpp:1076): a
function left-hand side looks for one accepting component. -/
def is_assignable_rproduct (c : DTC) (f : Nat) (lhs : Ty)
    (rts : TyL) : AssignResult :=
  match lhs with
  | .any => { yes := true }
  | .product lts => is_assignable_product_product c f lts rts
  | .sum ts =>
    (sum_assignable_product c f ts rts).getD
      { yes := false,
        messages := [cannot_assign_parts (to_string_Sum c ts) to_string_Product] }
  | .deferred ld =>
    match f with
    | 0 => fuel_exhausted
    | f + 1 => is_assignable_rproduct c f (reduce_deferred c f ld none) rts
  | .function lfn => is_divisible c f rts (.function lfn)
  | _ => { yes := false }

termination_by (f, 8 * (tySize lhs + tyListSize rts) + 2)
decreasing_by
all_goals simp_wf
all_goals first
| (apply Prod.Lex.left
   omega)
| (apply Prod.Lex.right
   subst_vars
   try simp only [tySize, fnSize, tupSize, tabSize, deferSize, tyListSize, tyPairListSize, tyNamedListSize, tyOptListSize, tyListSize_append]
   try simp only [tySize, fnSize, tupSize, tabSize, deferSize, tyListSize, tyPairListSize, tyNamedListSize, tyOptListSize, tyListSize_append] at *
   omega)

/-- `is_assignable(const SumType&, RHS)` instantiated at `ProductType`. -/
def sum_assignable_product (c : DTC) (f : Nat) (ts : TyL)
    (rts : TyL) : Option AssignResult :=
  match ts with
  | [] => none
  | t :: rest =>
    let r := is_assignable_rproduct c f t rts
    if r.yes then some r else sum_assignable_product c f rest rts

termination_by (f, 8 * (tyListSize ts + tyListSize rts) + 6)
decreasing_by
all_goals simp_wf
all_goals first
| (apply Prod.Lex.left
   omega)
| (apply Prod.Lex.right
   subst_vars
   try simp only [tySize, fnSize, tupSize, tabSize, deferSize, tyListSize, tyPairListSize, tyNamedListSize, tyOptListSize, tyListSize_append]
   try simp only [tySize, fnSize, tupSize, tabSize, deferSize, tyListSize, tyPairListSize, tyNamedListSize, tyOptListSize, tyListSize_append] at *
   omega)

/-- `is_divisible(const ProductType&, const Type&)` (type.hpp:790):
some component accepts the divisor. -/
def is_divisible (c : DTC) (f : Nat) (rts : TyL)
    (divisor : Ty) : AssignResult :=
  match rts with
  | [] => { yes := false }
  | rt :: rest =>
    let r := is_assignable c f divisor rt
    if r.yes then r else is_divisible c f rest divisor

termination_by (f, 8 * (tySize divisor + tyListSize rts) + 1)
decreasing_by
all_goals simp_wf
all_goals first
| (apply Prod.Lex.left
   omega)
| (apply Prod.Lex.right
   subst_vars
   try simp only [tySize, fnSize, tupSize, tabSize, deferSize, tyListSize, tyPairListSize, tyNamedListSize, tyOptListSize, tyListSize_append]
   try simp only [tySize, fnSize, tupSize, tabSize, deferSize, tyListSize, tyPairListSize, tyNamedListSize, tyOptListSize, tyListSize_append] at *
   omega)

/-- `is_assignable(const ProductType&, const ProductType&)`
(type.hpp:988): every left component must be accepted by the right
product. -/
def is_assignable_product_product (c : DTC) (f : Nat)
    (lts rts : TyL) : AssignResult :=
  match lts with
  | [] => { yes := true }
  | lt :: rest =>
    let r := is_assignable_rproduct c f lt rts
    if !r.yes then r else is_assignable_product_product c f rest rts

termination_by (f, 8 * (tyListSize lts + tyListSize rts) + 6)
decreasing_by
all_goals simp_wf
all_goals first
| (apply Prod.Lex.left
   omega)
| (apply Prod.Lex.right
   subst_vars
   try simp only [tySize, fnSize, tupSize, tabSize, deferSize, tyListSize, tyPairListSize, tyNamedListSize, tyOptListSize, tyListSize_append]
   try simp only [tySize, fnSize, tupSize, tabSize, deferSize, tyListSize, tyPairListSize, tyNamedListSize, tyOptListSize, tyListSize_append] at *
   omega)

/-- `operator|(const Type&, const Type&)` (type.hpp:536): if the left
side already accepts the right, return it; otherwise build a `Sum` from
the flattened left members plus the right side (filtering the members
of a right-hand `Sum` against the accumulated result). -/
def ty_union (c : DTC) (f : Nat) (lhs rhs : Ty) : Ty :=
  if (is_assignable c f lhs rhs).yes then lhs
  else
    match lhs, rhs with
    | .sum ts, .sum ms => .sum (ty_union_absorb c f ts ms)
    | .sum ts, other => .sum (ts ++ [other])
    | other, .sum ms => .sum (ty_union_absorb c f [other] ms)
    | otherl, otherr => .sum ([otherl] ++ [otherr])

termination_by (f, 8 * (tySize lhs + 2 * tySize rhs) + 7)
decreasing_by
all_goals simp_wf
all_goals first
| (apply Prod.Lex.left
   omega)
| (apply Prod.Lex.right
   subst_vars
   try simp only [tySize, fnSize, tupSize, tabSize, deferSize, tyListSize, tyPairListSize, tyNamedListSize, tyOptListSize, tyListSize_append]
   try simp only [tySize, fnSize, tupSize, tabSize, deferSize, tyListSize, tyPairListSize, tyNamedListSize, tyOptListSize, tyListSize_append] at *
   omega)

/-- Filtering loop of `operator|` (type.hpp:556-562): a member of the
right-hand sum is appended unless the accumulated sum already accepts
it. -/
def ty_union_absorb (c : DTC) (f : Nat)
    (acc ms : TyL) : TyL :=
  match ms with
  | [] => acc
  | m :: rest =>
    if (is_assignable c f (.sum acc) m).yes then ty_union_absorb c f acc rest
    else ty_union_absorb c f (acc ++ [m]) rest

termination_by (f, 8 * (tyListSize acc + 2 * tyListSize ms) + 2)
decreasing_by
all_goals simp_wf
all_goals first
| (apply Prod.Lex.left
   omega)
| (apply Prod.Lex.right
   subst_vars
   try simp only [tySize, fnSize, tupSize, tabSize, deferSize, tyListSize, tyPairListSize, tyNamedListSize, tyOptListSize, tyListSize_append]
   try simp only [tySize, fnSize, tupSize, tabSize, deferSize, tyListSize, tyPairListSize, tyNamedListSize, tyOptListSize, tyListSize_append] at *
   omega)

/-- `apply_genparams` (type.cpp:296): substitute inferred generic
bindings for nominal occurrences; with an empty binding vector the
input is returned unchanged. -/
def apply_genparams (c : DTC) (f : Nat)
    (genparams : OTyL) (noms : List Nat)
    (gpt : GpF) (t : Ty) : Ty :=
  if genparams.isEmpty then t
  else
    match t with
    | .nominal d =>
      match noms.findIdx? (fun n => n == d.id) with
      | some i => (genparams.getD i none).getD .any
      | none => t
    | .table (.mk ixs fs) =>
      .table (.mk (apply_genparams_pairs c f genparams noms gpt ixs)
                  (apply_genparams_named c f genparams noms gpt fs))
    | .sum ts =>
      match f with
      | 0 => .any
      | f + 1 => apply_genparams_sum_fold c f genparams noms gpt none ts
    | .tuple (.mk ts v) =>
      .tuple (.mk (apply_genparams_list c f genparams noms gpt ts) v)
    | .function (.mk gps fnoms ps ret var) =>
      .function (.mk (apply_genparams_named c f genparams noms gpt gps) fnoms
                     (apply_genparams_list c f genparams noms gpt ps)
                     (apply_genparams c f genparams noms gpt ret) var)
    | .require basis =>
      let inner := apply_genparams c f genparams noms gpt basis
      match gpt with
      | some g =>
        match inner with
        | .literal (.string s) => g s
        | _ => .any
      | none => .any
    | _ => t

termination_by (f, 16 * tySize t + 4)
decreasing_by
all_goals simp_wf
all_goals first
| (apply Prod.Lex.left
   omega)
| (apply Prod.Lex.right
   subst_vars
   try simp only [tySize, fnSize, tupSize, tabSize, deferSize, tyListSize, tyPairListSize, tyNamedListSize, tyOptListSize, tyListSize_append]
   try simp only [tySize, fnSize, tupSize, tabSize, deferSize, tyListSize, tyPairListSize, tyNamedListSize, tyOptListSize, tyListSize_append] at *
   omega)

/-- Structural recursion of `apply_genparams` through a type list. -/
def apply_genparams_list (c : DTC) (f : Nat)
    (genparams : OTyL) (noms : List Nat)
    (gpt : GpF) (ts : TyL) : TyL :=
  match ts with
  | [] => []
  | t :: rest =>
    apply_genparams c f genparams noms gpt t ::
      apply_genparams_list c f genparams noms gpt rest

termination_by (f, 16 * tyListSize ts + 7)
decreasing_by
all_goals simp_wf
all_goals first
| (apply Prod.Lex.left
   omega)
| (apply Prod.Lex.right
   subst_vars
   try simp only [tySize, fnSize, tupSize, tabSize, deferSize, tyListSize, tyPairListSize, tyNamedListSize, tyOptListSize, tyListSize_append]
   try simp only [tySize, fnSize, tupSize, tabSize, deferSize, tyListSize, tyPairListSize, tyNamedListSize, tyOptListSize, tyListSize_append] at *
   omega)

/-- Structural recursion of `apply_genparams` through table indexes. -/
def apply_genparams_pairs (c : DTC) (f : Nat)
    (genparams : OTyL) (noms : List Nat)
    (gpt : GpF) (ixs : KvL) : KvL :=
  match ixs with
  | [] => []
  | (k, v) :: rest =>
    (apply_genparams c f genparams noms gpt k,
     apply_genparams c f genparams noms gpt v) ::
      apply_genparams_pairs c f genparams noms gpt rest

termination_by (f, 16 * tyPairListSize ixs + 7)
decreasing_by
all_goals simp_wf
all_goals first
| (apply Prod.Lex.left
   omega)
| (apply Prod.Lex.right
   subst_vars
   try simp only [tySize, fnSize, tupSize, tabSize, deferSize, tyListSize, tyPairListSize, tyNamedListSize, tyOptListSize, tyListSize_append]
   try simp only [tySize, fnSize, tupSize, tabSize, deferSize, tyListSize, tyPairListSize, tyNamedListSize, tyOptListSize, tyListSize_append] at *
   omega)

/-- Structural recursion of `apply_genparams` through name/type pairs. -/
def apply_genparams_named (c : DTC) (f : Nat)
    (genparams : OTyL) (noms : List Nat)
    (gpt : GpF) (fs : FdL) : FdL :=
  match fs with
  | [] => []
  | (name, t) :: rest =>
    (name, apply_genparams c f genparams noms gpt t) ::
      apply_genparams_named c f genparams noms gpt rest

termination_by (f, 16 * tyNamedListSize fs + 7)
decreasing_by
all_goals simp_wf
all_goals first
| (apply Prod.Lex.left
   omega)
| (apply Prod.Lex.right
   subst_vars
   try simp only [tySize, fnSize, tupSize, tabSize, deferSize, tyListSize, tyPairListSize, tyNamedListSize, tyOptListSize, tyListSize_append]
   try simp only [tySize, fnSize, tupSize, tabSize, deferSize, tyListSize, tyPairListSize, tyNamedListSize, tyOptListSize, tyListSize_append] at *
   omega)

/-- The `SUM` case of `apply_genparams`: substituted members folded
with `operator|` (`rv = *rv | apply(...)`), defaulting to `Any` for an
empty sum. -/
def apply_genparams_sum_fold (c : DTC) (f : Nat)
    (genparams : OTyL) (noms : List Nat)
    (gpt : GpF) (acc : Option Ty) (ts : TyL) : Ty :=
  match ts with
  | [] => acc.getD .any
  | t :: rest =>
    let applied := apply_genparams c f genparams noms gpt t
    let acc' : Option Ty :=
      match acc with
      | some rv =>
        some (match f with
              | 0 => .any
              | f + 1 => ty_union c f rv applied)
      | none => some applied
    apply_genparams_sum_fold c f genparams noms gpt acc' rest

termination_by (f, 16 * tyListSize ts + 7)
decreasing_by
all_goals simp_wf
all_goals first
| (apply Prod.Lex.left
   omega)
| (apply Prod.Lex.right
   subst_vars
   try simp only [tySize, fnSize, tupSize, tabSize, deferSize, tyListSize, tyPairListSize, tyNamedListSize, tyOptListSize, tyListSize_append]
   try simp only [tySize, fnSize, tupSize, tabSize, deferSize, tyListSize, tyPairListSize, tyNamedListSize, tyOptListSize, tyListSize_append] at *
   omega)

/-- Modelled from the spec: `reduce_deferred` is declared in type.hpp
and called throughout the assignability judgment, but its definition is
not among the sources. Per spec sections 3 and 4.2 a `Deferred`
"resolves lazily" to its table entry's type, the entry's nominal ids
naming its generic parameters; the deferred's type arguments are
substituted for them via `apply_genparams` with the given package-type
resolver. -/
def reduce_deferred (c : DTC) (f : Nat) (d : DeferTy)
    (gpt : GpF) : Ty :=
  apply_genparams c f d.args (collection_get_nominals c d.id) gpt
    (collection_get_type c d.id)

termination_by (f, 16 * tySize (collection_get_type c d.id) + 8)
decreasing_by
all_goals simp_wf
all_goals first
| (apply Prod.Lex.left
   omega)
| (apply Prod.Lex.right
   subst_vars
   try simp only [tySize, fnSize, tupSize, tabSize, deferSize, tyListSize, tyPairListSize, tyNamedListSize, tyOptListSize, tyListSize_append]
   try simp only [tySize, fnSize, tupSize, tabSize, deferSize, tyListSize, tyPairListSize, tyNamedListSize, tyOptListSize, tyListSize_append] at *
   omega)
end

mutual

/-- `check_param` (type.hpp:1112): parameter/argument matching with
generic-parameter inference. A deferred argument is reduced first;
then dispatch on the parameter. The inference vector is threaded
through (the C++ passes it by reference), including through failed
attempts inside a `Sum` parameter. -/
def check_param (f : Nat) (c : DeferredTypeCollection) (param arg : Ty)
    (genparams : List (String × Ty)) (noms : List Nat)
    (inferred : List (Option Ty)) : AssignResult × List (Option Ty) :=
  match arg with
  | .deferred ad =>
    match f with
    | 0 => (fuel_exhausted, inferred)
    | f + 1 => check_param f c param (reduce_deferred c f ad none) genparams noms inferred
  | arg =>
    match param with
    | .nominal d =>
      match noms.findIdx? (fun n => n == d.id) with
      | some i =>
        match inferred.getD i none with
        | some inf => (is_assignable c f inf arg, inferred)
        | none =>
          match f with
          | 0 => (fuel_exhausted, inferred)
          | f + 1 =>
            let (r, inf') :=
              check_param f c (genparams.getD i ("", .void)).2 arg genparams noms inferred
            if r.yes then (r, inf'.set i (some arg)) else (r, inf')
      | none => (is_assignable c f (.nominal d) arg, inferred)
    | .table (.mk pixs pfs) =>
      match arg with
      | .table (.mk aixs afs) =>
        let (r, inf') := cp_table_indexes f c pixs aixs genparams noms inferred
        if !r.yes then (r, inf')
        else cp_table_fields f c pfs afs genparams noms inf'
      | argother =>
        ({ yes := false, messages := [cannot_assign c (.table (.mk pixs pfs)) argother] },
         inferred)
    | .sum ms =>
      match cp_sum_walk f c ms arg genparams noms inferred with
      | (some r, inf') => (r, inf')
      | (none, inf') =>
        ({ yes := false, messages := [cannot_assign c (.sum ms) arg] }, inf')
    | .deferred pd =>
      match f with
      | 0 => (fuel_exhausted, inferred)
      | f + 1 =>
        let (r, inf') := check_param f c (reduce_deferred c f pd none) arg genparams noms inferred
        if !r.yes then
          ({ r with messages := r.messages ++ [cannot_assign c (.deferred pd) arg] }, inf')
        else (r, inf')
    | p =>
      (is_assignable c f (apply_genparams c f (inferred) noms none p) arg, inferred)

termination_by (f, 8 * tySize param + tySize arg + 6)
decreasing_by
all_goals simp_wf
all_goals first
| (apply Prod.Lex.left
   omega)
| (apply Prod.Lex.right
   subst_vars
   try simp only [tySize, fnSize, tupSize, tabSize, deferSize, tyListSize, tyPairListSize, tyNamedListSize, tyOptListSize, tyListSize_append]
   try simp only [tySize, fnSize, tupSize, tabSize, deferSize, tyListSize, tyPairListSize, tyNamedListSize, tyOptListSize, tyListSize_append] at *
   omega)

/-- Loop of `check_param` over a table parameter's indexes
(type.hpp:1157-1168). -/
def cp_table_indexes (f : Nat) (c : DeferredTypeCollection)
    (pixs aixs : List (Ty × Ty)) (genparams : List (String × Ty))
    (noms : List Nat) (inferred : List (Option Ty)) :
    AssignResult × List (Option Ty) :=
  match pixs with
  | [] => ({ yes := true }, inferred)
  | (pk, pv) :: rest =>
    let (r, inf') := cp_table_rindexes f c pk pv aixs genparams noms inferred
    if !r.yes then (r, inf')
    else cp_table_indexes f c rest aixs genparams noms inf'

termination_by (f, 8 * tyPairListSize pixs + tyPairListSize aixs + 10)
decreasing_by
all_goals simp_wf
all_goals first
| (apply Prod.Lex.left
   omega)
| (apply Prod.Lex.right
   subst_vars
   try simp only [tySize, fnSize, tupSize, tabSize, deferSize, tyListSize, tyPairListSize, tyNamedListSize, tyOptListSize, tyListSize_append]
   try simp only [tySize, fnSize, tupSize, tabSize, deferSize, tyListSize, tyPairListSize, tyNamedListSize, tyOptListSize, tyListSize_append] at *
   omega)

/-- Inner loop of `check_param` matching one parameter index against
the argument's indexes. -/
def cp_table_rindexes (f : Nat) (c : DeferredTypeCollection) (pk pv : Ty)
    (aixs : List (Ty × Ty)) (genparams : List (String × Ty))
    (noms : List Nat) (inferred : List (Option Ty)) :
    AssignResult × List (Option Ty) :=
  match aixs with
  | [] => ({ yes := true }, inferred)
  | (ak, av) :: rest =>
    if (is_assignable c f ak pk).yes then
      let (r, inf') := check_param f c pv av genparams noms inferred
      if !r.yes then
        ({ r with messages := r.messages ++
            ["When checking param table index `" ++ to_string_Ty c pk ++ "`"] }, inf')
      else cp_table_rindexes f c pk pv rest genparams noms inf'
    else cp_table_rindexes f c pk pv rest genparams noms inferred

termination_by (f, 8 * (tySize pk + tySize pv) + tyPairListSize aixs + 8)
decreasing_by
all_goals simp_wf
all_goals first
| (apply Prod.Lex.left
   omega)
| (apply Prod.Lex.right
   subst_vars
   try simp only [tySize, fnSize, tupSize, tabSize, deferSize, tyListSize, tyPairListSize, tyNamedListSize, tyOptListSize, tyListSize_append]
   try simp only [tySize, fnSize, tupSize, tabSize, deferSize, tyListSize, tyPairListSize, tyNamedListSize, tyOptListSize, tyListSize_append] at *
   omega)

/-- Loop of `check_param` over a table parameter's fields
(type.hpp:1170-1181). -/
def cp_table_fields (f : Nat) (c : DeferredTypeCollection)
    (pfs afs : List (String × Ty)) (genparams : List (String × Ty))
    (noms : List Nat) (inferred : List (Option Ty)) :
    AssignResult × List (Option Ty) :=
  match pfs with
  | [] => ({ yes := true }, inferred)
  | (pn, pt) :: rest =>
    let (r, inf') := cp_table_afields f c pn pt afs genparams noms inferred
    if !r.yes then (r, inf')
    else cp_table_fields f c rest afs genparams noms inf'

termination_by (f, 8 * tyNamedListSize pfs + tyNamedListSize afs + 10)
decreasing_by
all_goals simp_wf
all_goals first
| (apply Prod.Lex.left
   omega)
| (apply Prod.Lex.right
   subst_vars
   try simp only [tySize, fnSize, tupSize, tabSize, deferSize, tyListSize, tyPairListSize, tyNamedListSize, tyOptListSize, tyListSize_append]
   try simp only [tySize, fnSize, tupSize, tabSize, deferSize, tyListSize, tyPairListSize, tyNamedListSize, tyOptListSize, tyListSize_append] at *
   omega)

/-- Inner loop of `check_param` over the argument's fields: every
same-named field is checked (the C++ loop does not break). -/
def cp_table_afields (f : Nat) (c : DeferredTypeCollection) (pn : String)
    (pt : Ty) (afs : List (String × Ty)) (genparams : List (String × Ty))
    (noms : List Nat) (inferred : List (Option Ty)) :
    AssignResult × List (Option Ty) :=
  match afs with
  | [] => ({ yes := true }, inferred)
  | (an, at') :: rest =>
    if pn == an then
      let (r, inf') := check_param f c pt at' genparams noms inferred
      if !r.yes then
        ({ r with messages := r.messages ++
            ["When checking param table field `" ++ pn ++ "`"] }, inf')
      else cp_table_afields f c pn pt rest genparams noms inf'
    else cp_table_afields f c pn pt rest genparams noms inferred

termination_by (f, 8 * tySize pt + tyNamedListSize afs + 8)
decreasing_by
all_goals simp_wf
all_goals first
| (apply Prod.Lex.left
   omega)
| (apply Prod.Lex.right
   subst_vars
   try simp only [tySize, fnSize, tupSize, tabSize, deferSize, tyListSize, tyPairListSize, tyNamedListSize, tyOptListSize, tyListSize_append]
   try simp only [tySize, fnSize, tupSize, tabSize, deferSize, tyListSize, tyPairListSize, tyNamedListSize, tyOptListSize, tyListSize_append] at *
   omega)

/-- The `Sum` case of `check_param` (type.hpp:1185-1197): first member
that admits the argument wins; inference updates made by failed
attempts persist. -/
def cp_sum_walk (f : Nat) (c : DeferredTypeCollection) (ms : List Ty)
    (arg : Ty) (genparams : List (String × Ty)) (noms : List Nat)
    (inferred : List (Option Ty)) :
    Option AssignResult × List (Option Ty) :=
  match ms with
  | [] => (none, inferred)
  | m :: rest =>
    let (r, inf') := check_param f c m arg genparams noms inferred
    if r.yes then (some r, inf')
    else cp_sum_walk f c rest arg genparams noms inf'

termination_by (f, 8 * tyListSize ms + tySize arg + 10)
decreasing_by
all_goals simp_wf
all_goals first
| (apply Prod.Lex.left
   omega)
| (apply Prod.Lex.right
   subst_vars
   try simp only [tySize, fnSize, tupSize, tabSize, deferSize, tyListSize, tyPairListSize, tyNamedListSize, tyOptListSize, tyListSize_append]
   try simp only [tySize, fnSize, tupSize, tabSize, deferSize, tyListSize, tyPairListSize, tyNamedListSize, tyOptListSize, tyListSize_append] at *
   omega)

end

mutual

/-- `resolve_overload(const Type&, ...)` (type.cpp:620): `Any` calls
return `Any`; functions check parameters; products try components in
order; deferred types recurse on the entry's type. The second result
component is the list of notes the call appends to the caller's note
vector (the C++ appends through a by-reference parameter). -/
def resolve_overload (f : Nat) (c : DeferredTypeCollection) (t : Ty)
    (args : List Ty) (gpt : Option (String → Ty)) : Option Ty × List String :=
  match t with
  | .any => (some .any, [])
  | .function fn => resolve_overload_fn f c fn args gpt
  | .product ts => resolve_overload_product f c ts args gpt []
  | .deferred d =>
    match f with
    | 0 => (none, ["model: fuel exhausted"])
    | f + 1 => resolve_overload f c (collection_get_type c d.id) args gpt
  | other => (none, ["Type `" ++ to_string_Ty c other ++ "` cannot be called"])

termination_by (f, 8 * tySize t + 2)
decreasing_by
all_goals simp_wf
all_goals first
| (apply Prod.Lex.left
   omega)
| (apply Prod.Lex.right
   subst_vars
   try simp only [tySize, fnSize, tupSize, tabSize, deferSize, tyListSize, tyPairListSize, tyNamedListSize, tyOptListSize, tyListSize_append]
   try simp only [tySize, fnSize, tupSize, tabSize, deferSize, tyListSize, tyPairListSize, tyNamedListSize, tyOptListSize, tyListSize_append] at *
   omega)

/-- `resolve_overload(const FunctionType&, ...)` (type.cpp:530): arity
guard, then `check_param` on each parameter (missing arguments are
`Nil`), then the genparam-substituted return type. -/
def resolve_overload_fn (f : Nat) (c : DeferredTypeCollection) (fn : FnTy)
    (args : List Ty) (gpt : Option (String → Ty)) : Option Ty × List String :=
  match fn with
  | .mk gps noms ps ret variadic =>
    if args.length > ps.length && !variadic then
      (none, ["Too many arguments for non-variadic function"])
    else
      ro_fn_loop f c gps noms 0 ps args (List.replicate gps.length none) [] ret gpt

termination_by (f, 8 * fnSize fn + 2)
decreasing_by
all_goals simp_wf
all_goals first
| (apply Prod.Lex.left
   omega)
| (apply Prod.Lex.right
   subst_vars
   try simp only [tySize, fnSize, tupSize, tabSize, deferSize, tyListSize, tyPairListSize, tyNamedListSize, tyOptListSize, tyListSize_append]
   try simp only [tySize, fnSize, tupSize, tabSize, deferSize, tyListSize, tyPairListSize, tyNamedListSize, tyOptListSize, tyListSize_append] at *
   omega)

/-- Parameter loop of `resolve_overload(const FunctionType&, ...)`:
the C++ iterates `i < min(args + nils, params) = params`, reading
`args[i]` or `Nil`. -/
def ro_fn_loop (f : Nat) (c : DeferredTypeCollection)
    (gps : List (String × Ty)) (noms : List Nat) (i : Nat) (ps args : List Ty)
    (inferred : List (Option Ty)) (notes : List String) (ret : Ty)
    (gpt : Option (String → Ty)) : Option Ty × List String :=
  match ps with
  | [] => (some (apply_genparams c f inferred noms gpt ret), notes)
  | p :: rest =>
    let argstype := args.getD i (.luatype .NIL)
    let (r, inf') := check_param f c p argstype gps noms inferred
    if !r.yes then
      (none, notes ++
        [assignResultToString
          { r with messages := r.messages ++ ["Invalid parameter " ++ toString i] }])
    else
      let notes' := if r.messages.isEmpty then notes else notes ++ [assignResultToString r]
      ro_fn_loop f c gps noms (i + 1) rest args inf' notes' ret gpt

termination_by (f, 8 * tyListSize ps + 4)
decreasing_by
all_goals simp_wf
all_goals first
| (apply Prod.Lex.left
   omega)
| (apply Prod.Lex.right
   subst_vars
   try simp only [tySize, fnSize, tupSize, tabSize, deferSize, tyListSize, tyPairListSize, tyNamedListSize, tyOptListSize, tyListSize_append]
   try simp only [tySize, fnSize, tupSize, tabSize, deferSize, tyListSize, tyPairListSize, tyNamedListSize, tyOptListSize, tyListSize_append] at *
   omega)

/-- `resolve_overload(const ProductType&, ...)` (type.cpp:573): try
each component in order; the first success returns with only its own
notes; when all fail, the accumulated notes of every component are
returned. -/
def resolve_overload_product (f : Nat) (c : DeferredTypeCollection)
    (ts : List Ty) (args : List Ty) (gpt : Option (String → Ty))
    (all_notes : List String) : Option Ty × List String :=
  match ts with
  | [] => (none, all_notes)
  | t :: rest =>
    let (result, cur) := resolve_overload f c t args gpt
    match result with
    | some r => (some r, cur)
    | none => resolve_overload_product f c rest args gpt (all_notes ++ cur)

termination_by (f, 8 * tyListSize ts + 4)
decreasing_by
all_goals simp_wf
all_goals first
| (apply Prod.Lex.left
   omega)
| (apply Prod.Lex.right
   subst_vars
   try simp only [tySize, fnSize, tupSize, tabSize, deferSize, tyListSize, tyPairListSize, tyNamedListSize, tyOptListSize, tyListSize_append]
   try simp only [tySize, fnSize, tupSize, tabSize, deferSize, tyListSize, tyPairListSize, tyNamedListSize, tyOptListSize, tyListSize_append] at *
   omega)

end

/-- Payload comparison `are_same` of `operator-` (type.hpp:681-694). -/
def literal_same (l r : LiteralTy) : Bool :=
  match l, r with
  | .boolean a, .boolean b => a == b
  | .number a, .number b => numberRepEq a b
  | .string a, .string b => a == b
  | _, _ => false

mutual

/-- `operator-(const Type&, const Type&)` (type.hpp:629): the narrowing
difference. A `Sum` left-hand side reduces member-wise (dropping
`Void`s, collapsing a singleton); a `Sum` right-hand side loops
`result = result - rhs` once per member — the loop variable is unused,
so each step subtracts the WHOLE sum again (`ty_sub_iter`); a `Literal`
right-hand side cancels an equal literal or flips a boolean out of the
`Boolean` primitive. `none` models non-termination: no fuel suffices. -/
def ty_sub (f : Nat) (lhs rhs : Ty) : Option Ty :=
  match lhs with
  | .sum ts =>
    match ty_sub_members f ts rhs with
    | none => none
    | some [] => some .void
    | some [t] => some t
    | some result => some (.sum result)
  | lother =>
    match rhs with
    | .sum ms => ty_sub_iter f lother ms.length (.sum ms)
    | .literal rlit =>
      match lother with
      | .luatype llua =>
        if llua == rlit.underlying_type then
          match rlit with
          | .boolean b => some (.literal (.boolean (!b)))
          | _ => some (.luatype llua)
        else some (.luatype llua)
      | .literal llit =>
        if literal_same llit rlit then some .void else some (.literal llit)
      | lother' => some lother'
    | _ => some lother

termination_by (f, 8 * tySize lhs + 1)
decreasing_by
all_goals simp_wf
all_goals first
| (apply Prod.Lex.left
   omega)
| (apply Prod.Lex.right
   subst_vars
   try simp only [tySize, fnSize, tupSize, tabSize, deferSize, tyListSize, tyPairListSize, tyNamedListSize, tyOptListSize, tyListSize_append]
   try simp only [tySize, fnSize, tupSize, tabSize, deferSize, tyListSize, tyPairListSize, tyNamedListSize, tyOptListSize, tyListSize_append] at *
   omega)

/-- Member-wise reduction of a `Sum` left-hand side (type.hpp:631-639):
reduced members that became `Void` are dropped. -/
def ty_sub_members (f : Nat) (ts : List Ty) (rhs : Ty) : Option (List Ty) :=
  match ts with
  | [] => some []
  | t :: rest =>
    match ty_sub f t rhs with
    | none => none
    | some reduced =>
      match ty_sub_members f rest rhs with
      | none => none
      | some rs =>
        some (match reduced with
              | .void => rs
              | r => r :: rs)

termination_by (f, 8 * tyListSize ts + 4)
decreasing_by
all_goals simp_wf
all_goals first
| (apply Prod.Lex.left
   omega)
| (apply Prod.Lex.right
   subst_vars
   try simp only [tySize, fnSize, tupSize, tabSize, deferSize, tyListSize, tyPairListSize, tyNamedListSize, tyOptListSize, tyListSize_append]
   try simp only [tySize, fnSize, tupSize, tabSize, deferSize, tyListSize, tyPairListSize, tyNamedListSize, tyOptListSize, tyListSize_append] at *
   omega)

/-- The `Sum` right-hand loop of `operator-` (type.hpp:654-662),
faithfully subtracting the whole right-hand sum once per member; fuel
is consumed per iteration because the C++ recursion never terminates
here. -/
def ty_sub_iter (f : Nat) (acc : Ty) (k : Nat) (rhs : Ty) : Option Ty :=
  match k with
  | 0 => some acc
  | k + 1 =>
    match f with
    | 0 => none
    | f + 1 =>
      match ty_sub f acc rhs with
      | none => none
      | some acc' => ty_sub_iter f acc' k rhs

termination_by (f, 0)
decreasing_by
all_goals simp_wf
all_goals first
| (apply Prod.Lex.left
   omega)
| (apply Prod.Lex.right
   subst_vars
   try simp only [tySize, fnSize, tupSize, tabSize, deferSize, tyListSize, tyPairListSize, tyNamedListSize, tyOptListSize, tyListSize_append]
   try simp only [tySize, fnSize, tupSize, tabSize, deferSize, tyListSize, tyPairListSize, tyNamedListSize, tyOptListSize, tyListSize_append] at *
   omega)

end

/-- Field nodes of a table-constructor expression. A field node is
represented by the types its subexpressions' `get_type` return; the
recursive `field->check` pass over those subexpressions is outside this
model. `expr` is `NFieldExpr`, `named` is `NFieldNamed`, `keyed` is
`NFieldKey`. -/
inductive NField where
  | expr (exprtype : Ty)
  | named (key : String) (exprtype : Ty)
  | keyed (keytype exprtype : Ty)

/-- `NFieldExpr::add_to_table` (node.cpp:1429): widen the first index
whose key accepts `Number`, else append a `Number` index. -/
def add_index_number (f : Nat) (c : DeferredTypeCollection) (exprtype : Ty) :
    List (Ty × Ty) → List (Ty × Ty)
  | [] => [(.luatype .NUMBER, exprtype)]
  | (k, v) :: rest =>
    if (is_assignable_lua c f k .NUMBER).yes then (k, ty_union c f v exprtype) :: rest
    else (k, v) :: add_index_number f c exprtype rest

/-- `NFieldNamed::add_to_table` (node.cpp:1452): union into an existing
same-named field (reporting the duplicate) or append; the returned flag
says whether a duplicate was found. -/
def add_field_named (f : Nat) (c : DeferredTypeCollection) (key : String)
    (valtype : Ty) : List (String × Ty) → List (String × Ty) × Bool
  | [] => ([(key, valtype)], false)
  | (n, t) :: rest =>
    if n == key then ((n, ty_union c f t valtype) :: rest, true)
    else
      let (rest', dup) := add_field_named f c key valtype rest
      ((n, t) :: rest', dup)

/-- `NFieldKey::add_to_table` (node.cpp:1479): widen the first index
whose key accepts the new key type, else append. -/
def add_index_keyed (f : Nat) (c : DeferredTypeCollection)
    (keytype exprtype : Ty) : List (Ty × Ty) → List (Ty × Ty)
  | [] => [(keytype, exprtype)]
  | (k, v) :: rest =>
    if (is_assignable c f k keytype).yes then (k, ty_union c f v exprtype) :: rest
    else (k, v) :: add_index_keyed f c keytype exprtype rest

/-- The `add_to_table` fold of `NTableConstructor::check`
(node.cpp:1503-1505), accumulating indexes, field declarations and
duplicate-key errors. -/
def ntable_fields_fold (f : Nat) (c : DeferredTypeCollection) :
    List NField → List (Ty × Ty) → List (String × Ty) → List String →
    List (Ty × Ty) × List (String × Ty) × List String
  | [], indexes, fdecls, errors => (indexes, fdecls, errors)
  | .expr t :: rest, indexes, fdecls, errors =>
    ntable_fields_fold f c rest (add_index_number f c t indexes) fdecls errors
  | .named k t :: rest, indexes, fdecls, errors =>
    let (fdecls', dup) := add_field_named f c k t fdecls
    ntable_fields_fold f c rest indexes fdecls'
      (if dup then errors ++ ["Duplicate table key '" ++ k ++ "'"] else errors)
  | .keyed kt vt :: rest, indexes, fdecls, errors =>
    ntable_fields_fold f c rest (add_index_keyed f c kt vt indexes) fdecls errors

/-- `NTableConstructor::check` (node.cpp:1495-1515): check and fold the
fields; an entirely empty constructor reserves a fresh narrowing-mode
entry named `@<last_line>` in the deferred type table, sets it to the
empty table type, and caches a `Deferred` type pointing at it (its
collection token 0 stands for the session's collection, the pointer
`Type::make_deferred` stores); otherwise the plain table type built
from the fields is cached. Returns the updated collection, the cached
type, and the errors appended. -/
def ntable_constructor_check (f : Nat) (c : DeferredTypeCollection)
    (last_line : Nat) (fields : List NField) :
    DeferredTypeCollection × Ty × List String :=
  let (indexes, fdecls, errors) := ntable_fields_fold f c fields [] [] []
  if indexes.isEmpty && fields.isEmpty then
    let (c1, deferred_id) := reserve_narrow c ("@" ++ toString last_line)
    let c2 := collection_set c1 deferred_id (.table (.mk [] []))
    (c2, .deferred (.mk 0 deferred_id []), errors)
  else
    (c, .table (.mk indexes fdecls), errors)

/-- Tag test: is the type the `Void` variant. -/
def isVoidT : Ty → Bool
  | .void => true
  | _ => false

/-- Tag test: is the type a `Sum`. -/
def isSumT : Ty → Bool
  | .sum _ => true
  | _ => false

/-- First field with a given name, the lookup of type.hpp:931. -/
def find_field (fs : List (String × Ty)) (n : String) : Ty :=
  ((fs.find? (fun g => g.1 == n)).getD ("", .void)).2

mutual

/-- A decidable class of types on which `is_assignable T T` provably
succeeds at every fuel: `Void`, `Any`, primitives, boolean/integer/
string literals, nominals and deferred types; non-generic functions,
tuples whose last element is not a tuple, sums without `Void` or nested
`Sum` members, products of `Any`/function components, and tables whose
index keys do not cross-accept inconsistently, whose string-accepting
index values absorb every field, and whose fields match their first
same-named occurrence — each built from components again in the class.
Floating literals are excluded because the C++ compares doubles with
IEEE `==`. -/
def ReflOk (f : Nat) (c : DeferredTypeCollection) : Ty → Bool
  | .void => true
  | .any => true
  | .luatype _ => true
  | .literal (.number (.floating _)) => false
  | .literal _ => true
  | .nominal _ => true
  | .deferred _ => true
  | .require _ => false
  | .function (.mk gps _ ps ret _) => gps.isEmpty && ReflOkList f c ps && ReflOk f c ret
  | .tuple (.mk ts _) =>
    ReflOkList f c ts &&
      (match split_last ts with
       | some (_, .tuple _) => false
       | _ => true)
  | .sum ms => ReflOkList f c ms && ms.all (fun m => !isVoidT m && !isSumT m)
  | .product ts => ReflOkProd f c ts
  | .table (.mk ixs fs) =>
    ixs.all (fun li => ixs.all (fun ri =>
        !(is_assignable c f ri.1 li.1).yes || (is_assignable c f li.2 ri.2).yes)) &&
    ixs.all (fun li => !(is_assignable_lua c f li.1 .STRING).yes ||
        fs.all (fun fd => (is_assignable c f li.2 fd.2).yes)) &&
    fs.all (fun fd => (is_assignable c f fd.2 (find_field fs fd.1)).yes)

/-- `ReflOk` over a list of types. -/
def ReflOkList (f : Nat) (c : DeferredTypeCollection) : List Ty → Bool
  | [] => true
  | t :: rest => ReflOk f c t && ReflOkList f c rest

/-- `ReflOk` over product components: each must be `Any` or a function
in the class. -/
def ReflOkProd (f : Nat) (c : DeferredTypeCollection) : List Ty → Bool
  | [] => true
  | .any :: rest => ReflOkProd f c rest
  | .function fn :: rest => ReflOk f c (.function fn) && ReflOkProd f c rest
  | _ => false

end

/-- Flatness predicate of the sum-normalization invariant: when the
type is a `Sum`, none of its members is itself a `Sum`. -/
def noNestedSum : Ty → Bool
  | .sum ts => ts.all (fun m => !isSumT m)
  | _ => true

end typedlua

set_option maxHeartbeats 1600000

namespace typedlua

/-! Dispatch lemmas: the outermost `is_assignable` only adds a message
on failure, so its success flag is that of the per-tag overload. -/

/-- Success against an `Any` right-hand side is unconditional. -/
theorem isA_yes_any (f : Nat) (c : DeferredTypeCollection) (l : Ty) :
    (is_assignable c f l .any).yes = true := by
  simp [is_assignable]

/-- Success flag of the `Void` dispatch arm. -/
theorem isA_yes_void (f : Nat) (c : DeferredTypeCollection) (l : Ty) :
    (is_assignable c f l .void).yes = (is_assignable_void c l).yes := by
  simp only [is_assignable]
  cases hr : (is_assignable_void c l).yes <;> simp [hr]

/-- Success flag of the `Primitive` dispatch arm. -/
theorem isA_yes_lua (f : Nat) (c : DeferredTypeCollection) (l : Ty) (lt : LuaType) :
    (is_assignable c f l (.luatype lt)).yes = (is_assignable_lua c f l lt).yes := by
  simp only [is_assignable]
  cases hr : (is_assignable_lua c f l lt).yes <;> simp [hr]

/-- Success flag of the `Function` dispatch arm. -/
theorem isA_yes_fn (f : Nat) (c : DeferredTypeCollection) (l : Ty) (rfn : FnTy) :
    (is_assignable c f l (.function rfn)).yes = (is_assignable_fn c f l rfn).yes := by
  simp only [is_assignable]
  cases hr : (is_assignable_fn c f l rfn).yes <;> simp [hr]

/-- Success flag of the `Tuple` dispatch arm. -/
theorem isA_yes_tuple (f : Nat) (c : DeferredTypeCollection) (l : Ty) (rtup : TupleTy) :
    (is_assignable c f l (.tuple rtup)).yes = (is_assignable_tuple c f l rtup).yes := by
  simp only [is_assignable]
  cases hr : (is_assignable_tuple c f l rtup).yes <;> simp [hr]

/-- Success flag of the `Sum` dispatch arm. -/
theorem isA_yes_sum (f : Nat) (c : DeferredTypeCollection) (l : Ty) (ms : List Ty) :
    (is_assignable c f l (.sum ms)).yes = (is_assignable_rsum c f l ms).yes := by
  simp only [is_assignable]
  cases hr : (is_assignable_rsum c f l ms).yes <;> simp [hr]

/-- Success flag of the `Table` dispatch arm. -/
theorem isA_yes_table (f : Nat) (c : DeferredTypeCollection) (l : Ty) (rtab : TableTy) :
    (is_assignable c f l (.table rtab)).yes = (is_assignable_table c f l rtab).yes := by
  simp only [is_assignable]
  cases hr : (is_assignable_table c f l rtab).yes <;> simp [hr]

/-- Success flag of the `Deferred` dispatch arm. -/
theorem isA_yes_defer (f : Nat) (c : DeferredTypeCollection) (l : Ty) (rd : DeferTy) :
    (is_assignable c f l (.deferred rd)).yes = (is_assignable_rdefer c f l rd).yes := by
  simp only [is_assignable]
  cases hr : (is_assignable_rdefer c f l rd).yes <;> simp [hr]

/-- Success flag of the `Literal` dispatch arm. -/
theorem isA_yes_literal (f : Nat) (c : DeferredTypeCollection) (l : Ty) (rlit : LiteralTy) :
    (is_assignable c f l (.literal rlit)).yes = (is_assignable_rliteral c f l rlit).yes := by
  simp only [is_assignable]
  cases hr : (is_assignable_rliteral c f l rlit).yes <;> simp [hr]

/-- Success flag of the `Nominal` dispatch arm. -/
theorem isA_yes_nominal (f : Nat) (c : DeferredTypeCollection) (l : Ty) (rnom : DeferTy) :
    (is_assignable c f l (.nominal rnom)).yes = (is_assignable_rnominal c f l rnom).yes := by
  simp only [is_assignable]
  cases hr : (is_assignable_rnominal c f l rnom).yes <;> simp [hr]

/-- Success flag of the `Product` dispatch arm. -/
theorem isA_yes_product (f : Nat) (c : DeferredTypeCollection) (l : Ty) (rts : List Ty) :
    (is_assignable c f l (.product rts)).yes = (is_assignable_rproduct c f l rts).yes := by
  simp only [is_assignable]
  cases hr : (is_assignable_rproduct c f l rts).yes <;> simp [hr]

/-- A `Require` right-hand side falls into the dispatcher's default and
always fails. -/
theorem isA_yes_require (f : Nat) (c : DeferredTypeCollection) (l b : Ty) :
    (is_assignable c f l (.require b)).yes = false := by
  simp [is_assignable]

/-! Claim C4. -/

/-- C4 counterexample: the claim states `is_assignable(Any, Void)`
succeeds, but the `VoidType` overload accepts only a `Void` left-hand
side — `Any ← Void` fails in the code. -/
theorem c4_void_counterexample :
    (is_assignable [] 1 Ty.any Ty.void).yes = false := by
  simp [is_assignable, is_assignable_void]

/-- C4 (amended): for every left-hand side L, `is_assignable(L, Void)`
succeeds exactly when L is itself `Void`; `Any` (like every other
non-`Void` L) is rejected. -/
theorem c4_void_amended (f : Nat) (c : DeferredTypeCollection) (l : Ty) :
    (is_assignable c f l Ty.void).yes = isVoidT l := by
  rw [isA_yes_void]
  cases l <;> simp [is_assignable_void, isVoidT]

/-! Claim C2. -/

/-- C2: for non-generic single-parameter function types L = (α) → β and
R = (α') → β', `is_assignable(L, R)` succeeds iff α' ← α (parameters
contravariant) and β ← β' (return covariant). -/
theorem c2_function_variance (f : Nat) (c : DeferredTypeCollection)
    (a b a' b' : Ty) :
    (is_assignable c f (.function (.mk [] [] [a] b false))
        (.function (.mk [] [] [a'] b' false))).yes
      = ((is_assignable c f a' a).yes && (is_assignable c f b b').yes) := by
  rw [isA_yes_fn]
  simp only [is_assignable_fn.eq_def]
  rw [is_assignable_fn_fn.eq_def]
  cases h1 : (is_assignable c f a' a).yes <;>
    cases h2 : (is_assignable c f b b').yes <;>
      simp [fn_params_loop.eq_def, h1, h2]

/-! Claim C3. -/

/-- C3 counterexample: at T = Number, `T | Void` is the two-member sum
`Number ∨ Void` (not T), and `T | Any` is `Number` (not Any): the
right-hand `Any` is absorbed because everything accepts an `Any`
right-hand side, so the union returns its LEFT operand. -/
theorem c3_union_identity_counterexample :
    ty_union [] 0 (.luatype .NUMBER) Ty.void
        = Ty.sum [.luatype .NUMBER, Ty.void] ∧
      ty_union [] 0 (.luatype .NUMBER) Ty.void ≠ Ty.luatype .NUMBER ∧
      ty_union [] 0 (.luatype .NUMBER) Ty.any = Ty.luatype .NUMBER ∧
      ty_union [] 0 (.luatype .NUMBER) Ty.any ≠ Ty.any := by
  refine ⟨?_, ?_, ?_, ?_⟩ <;>
    simp [ty_union, is_assignable, is_assignable_void, is_assignable_lua]

/-- C3 (amended): of the three claimed identities only the
self-assignable cases survive: for T with `T ← T`, `T | T = T`; for
every T, `T | Any = T` (not `Any`); `T | Void = T` holds only at
T = Void (otherwise a `Sum` with `Void` appended is produced, see the
counterexample). -/
theorem c3_union_identity (f : Nat) (c : DeferredTypeCollection) (t : Ty)
    (h : (is_assignable c f t t).yes = true) :
    ty_union c f t t = t ∧ ty_union c f t Ty.any = t := by
  constructor
  · unfold ty_union
    simp [h]
  · have ha : (is_assignable c f t Ty.any).yes = true := isA_yes_any f c t
    unfold ty_union
    simp [ha]

/-- Witness for C3 at T = Number. -/
theorem c3_union_identity_witness :
    (is_assignable [] 1 (.luatype .NUMBER) (.luatype .NUMBER)).yes = true ∧
      ty_union [] 1 (.luatype .NUMBER) (.luatype .NUMBER) = .luatype .NUMBER ∧
      ty_union [] 1 (.luatype .NUMBER) Ty.any = .luatype .NUMBER := by
  have h : (is_assignable [] 1 (Ty.luatype .NUMBER) (Ty.luatype .NUMBER)).yes = true := by
    simp [is_assignable, is_assignable_lua, is_assignable_lua_lua]
  exact ⟨h, c3_union_identity 1 [] (.luatype .NUMBER) h⟩

/-! Claim C5. -/

/-- C5 counterexample: at T = Number (a primitive), `T - T` is `Number`
itself, not `Void`: `operator-` only cancels equal literals; a
primitive minus itself falls through to `return lhs`. -/
theorem c5_difference_counterexample :
    ty_sub 0 (.luatype .NUMBER) (.luatype .NUMBER)
        = some (Ty.luatype .NUMBER) ∧
      ty_sub 0 (.luatype .NUMBER) (.luatype .NUMBER) ≠ some Ty.void := by
  constructor <;> simp [ty_sub]

/-- C5 (amended): `T - T = Void` holds for literal types T (booleans,
integer numbers, strings) — not for every T (see the counterexample,
where a primitive is returned unchanged); and
`Boolean - (literal true) = literal false` holds as claimed. -/
theorem c5_difference_sanity :
    (∀ (f : Nat) (b : Bool),
        ty_sub f (.literal (.boolean b)) (.literal (.boolean b)) = some Ty.void) ∧
      (∀ (f : Nat) (i : Int),
        ty_sub f (.literal (.number (.integer i))) (.literal (.number (.integer i)))
          = some Ty.void) ∧
      (∀ (f : Nat) (s : String),
        ty_sub f (.literal (.string s)) (.literal (.string s)) = some Ty.void) ∧
      (∀ f : Nat,
        ty_sub f (.luatype .BOOLEAN) (.literal (.boolean true))
          = some (.literal (.boolean false))) := by
  refine ⟨?_, ?_, ?_, ?_⟩ <;>
    intros <;>
      simp [ty_sub, literal_same, numberRepEq, LiteralTy.underlying_type]

/-! Claim C6. -/

/-- C6: the difference operator is NOT total when the right-hand side is
a `Sum` and the left is not: the loop `result = result - rhs` subtracts
the WHOLE sum on every iteration (the loop variable `type` is unused),
so the recursion never terminates — in the fuel model, no amount of fuel
produces a result for `Number - (Number | String)`. -/
theorem c6_difference_divergence (f : Nat) :
    ty_sub f (.luatype .NUMBER) (.sum [.luatype .NUMBER, .luatype .STRING])
      = none := by
  induction f with
  | zero => simp [ty_sub, ty_sub_iter]
  | succ f ih => simp [ty_sub, ty_sub_iter] at ih ⊢; simp [ih]

end typedlua

namespace typedlua

/-! Claim C8. -/

/-- C8 counterexample: `is_assignable(Tuple[Number, Tuple[Number,
Number]], Tuple[Number, Number, Number])` fails — the splice applies
only when the RIGHT-hand side's last element is a tuple, so at item 1
the inner tuple is compared against the primitive and rejected. -/
theorem c8_tuple_splice_counterexample :
    (is_assignable [] 1
        (.tuple (.mk [.luatype .NUMBER,
                      .tuple (.mk [.luatype .NUMBER, .luatype .NUMBER] false)] false))
        (.tuple (.mk [.luatype .NUMBER, .luatype .NUMBER, .luatype .NUMBER] false))).yes
      = false := by
  simp [is_assignable, is_assignable_tuple, is_assignable_tuple_tuple, split_last,
        tuple_items_loop, tuple_nil_loop, is_assignable_lua, is_assignable_lua_lua]

/-- C8 (amended): the splice works in the reverse direction of the
claim: for self-assignable A, B, C with C not itself a tuple,
`Tuple[A, B, C] ← Tuple[A, Tuple[B, C]]` — the right-hand side's tuple
tail is spliced in and compared positionally. -/
theorem c8_tuple_splice (f : Nat) (c : DeferredTypeCollection) (A B C' : Ty)
    (hA : (is_assignable c f A A).yes = true)
    (hB : (is_assignable c f B B).yes = true)
    (hC : (is_assignable c f C' C').yes = true)
    (hnt : ∀ tup, C' ≠ Ty.tuple tup) :
    (is_assignable c f (.tuple (.mk [A, B, C'] false))
        (.tuple (.mk [A, .tuple (.mk [B, C'] false)] false))).yes = true := by
  rw [isA_yes_tuple]
  simp only [is_assignable_tuple.eq_def]
  rw [is_assignable_tuple_tuple.eq_def]
  simp only [split_last]
  rw [is_assignable_tuple_tuple.eq_def]
  cases C' <;>
    first
    | exact absurd rfl (hnt _)
    | simp [split_last, tuple_items_loop.eq_def, hA, hB, hC]

/-- Witness for C8 at A = Number, B = String, C = Boolean. -/
theorem c8_tuple_splice_witness :
    (is_assignable [] 1 (.luatype .NUMBER) (.luatype .NUMBER)).yes = true ∧
      (is_assignable [] 1
          (.tuple (.mk [.luatype .NUMBER, .luatype .STRING, .luatype .BOOLEAN] false))
          (.tuple (.mk [.luatype .NUMBER,
                        .tuple (.mk [.luatype .STRING, .luatype .BOOLEAN] false)] false))).yes
        = true := by
  have hA : (is_assignable [] 1 (Ty.luatype .NUMBER) (Ty.luatype .NUMBER)).yes = true := by
    simp [is_assignable, is_assignable_lua, is_assignable_lua_lua]
  have hB : (is_assignable [] 1 (Ty.luatype .STRING) (Ty.luatype .STRING)).yes = true := by
    simp [is_assignable, is_assignable_lua, is_assignable_lua_lua]
  have hC : (is_assignable [] 1 (Ty.luatype .BOOLEAN) (Ty.luatype .BOOLEAN)).yes = true := by
    simp [is_assignable, is_assignable_lua, is_assignable_lua_lua]
  exact ⟨hA, c8_tuple_splice 1 [] _ _ _ hA hB hC (fun tup h => by cases h)⟩

/-! Claim C7. -/

/-- Members of the union's filtering loop come from the accumulator or
from the right-hand sum's members. -/
theorem ty_union_absorb_mem (f : Nat) (c : DeferredTypeCollection) :
    ∀ (ms acc : List Ty) (x : Ty), x ∈ ty_union_absorb c f acc ms →
      x ∈ acc ∨ x ∈ ms := by
  intro ms
  induction ms with
  | nil =>
    intro acc x hx
    simp only [ty_union_absorb] at hx
    exact Or.inl hx
  | cons m rest ih =>
    intro acc x hx
    rw [ty_union_absorb.eq_def] at hx
    by_cases hc : (is_assignable c f (.sum acc) m).yes
    · simp only [hc, if_true] at hx
      rcases ih acc x hx with h | h
      · exact Or.inl h
      · exact Or.inr (List.mem_cons_of_mem m h)
    · simp only [hc, if_false] at hx
      rcases ih (acc ++ [m]) x hx with h | h
      · rcases List.mem_append.mp h with h' | h'
        · exact Or.inl h'
        · simp at h'
          exact Or.inr (h' ▸ List.mem_cons_self m rest)
      · exact Or.inr (List.mem_cons_of_mem m h)

/-- C7 counterexample: `(literal 3) | Number` produces the Sum
`[literal 3, Number]` although `Number` subsumes `literal 3`
(`is_assignable(Number, literal 3)` succeeds): the subsumption filter
runs only for the members of a right-hand `Sum`, a bare right-hand side
is appended unconditionally. -/
theorem c7_sum_counterexample :
    ty_union [] 0 (.literal (.number (.integer 3))) (.luatype .NUMBER)
        = Ty.sum [.literal (.number (.integer 3)), .luatype .NUMBER] ∧
      (is_assignable [] 0 (.luatype .NUMBER)
          (.literal (.number (.integer 3)))).yes = true := by
  constructor
  · unfold ty_union
    simp [is_assignable, is_assignable_lua]
  · simp [is_assignable, is_assignable_rliteral, is_assignable_lua,
          is_assignable_lua_lua, LiteralTy.underlying_type]

/-- A type constrained away from the `Sum` constructor is not a sum. -/
theorem not_sum_of_never (x : Ty) (h : ∀ ts, x = Ty.sum ts → False) :
    (!isSumT x) = true := by
  cases x <;> first | exact absurd rfl (h _) | simp [isSumT]

/-- C7 (amended): the flatness half of the invariant holds whenever the
operands themselves have no directly-nested sums: `A | B` then never
places a `Sum` directly inside the produced `Sum`. (The
pairwise-subsumption half is refuted by the counterexample.) -/
theorem c7_sum_flatness (f : Nat) (c : DeferredTypeCollection) (a b : Ty)
    (ha : noNestedSum a = true) (hb : noNestedSum b = true) :
    noNestedSum (ty_union c f a b) = true := by
  unfold ty_union
  by_cases hacc : (is_assignable c f a b).yes
  · simp [hacc, ha]
  · simp only [hacc, Bool.false_eq_true, if_false]
    split
    · simp only [noNestedSum, List.all_eq_true]
      intro x hx
      rcases ty_union_absorb_mem f c _ _ x hx with h | h
      · simp only [noNestedSum, List.all_eq_true] at ha
        exact ha x h
      · simp only [noNestedSum, List.all_eq_true] at hb
        exact hb x h
    · simp only [noNestedSum, List.all_eq_true]
      intro x hx
      rcases List.mem_append.mp hx with h | h
      · simp only [noNestedSum, List.all_eq_true] at ha
        exact ha x h
      · simp only [List.mem_singleton] at h
        subst h
        exact not_sum_of_never _ (by assumption)
    · simp only [noNestedSum, List.all_eq_true]
      intro x hx
      rcases ty_union_absorb_mem f c _ _ x hx with h | h
      · simp only [List.mem_singleton] at h
        subst h
        exact not_sum_of_never _ (by assumption)
      · simp only [noNestedSum, List.all_eq_true] at hb
        exact hb x h
    · simp only [noNestedSum, List.all_eq_true]
      intro x hx
      simp only [List.cons_append, List.nil_append, List.mem_cons,
        List.mem_singleton, List.not_mem_nil, or_false] at hx
      rcases hx with h | h
      · subst h
        exact not_sum_of_never _ (by assumption)
      · subst h
        exact not_sum_of_never _ (by assumption)

/-- Witness for C7 at A = literal 3, B = Number. -/
theorem c7_sum_flatness_witness :
    noNestedSum (.literal (.number (.integer 3))) = true ∧
      noNestedSum (.luatype .NUMBER) = true ∧
      noNestedSum (ty_union [] 0 (.literal (.number (.integer 3)))
        (.luatype .NUMBER)) = true := by
  refine ⟨by simp [noNestedSum], by simp [noNestedSum], ?_⟩
  exact c7_sum_flatness 0 [] _ _ (by simp [noNestedSum]) (by simp [noNestedSum])

/-! Claim C10. -/

/-- Setting the freshly appended entry of a list rewrites exactly that
entry. -/
theorem list_set_concat {α : Type} (c : List α) (e e' : α) :
    (c ++ [e]).set c.length e' = c ++ [e'] := by
  induction c with
  | nil => simp
  | cons x rest ih => simp [List.set, ih]

/-- Reading the freshly appended entry of a list yields it. -/
theorem list_getD_concat {α : Type} (c : List α) (e d : α) :
    (c ++ [e]).getD c.length d = e := by
  induction c with
  | nil => simp [List.getD]
  | cons x rest ih => simp [List.getD]

/-- C10: checking `{}` (no fields) appends a fresh narrowing-mode entry
named `@<line>` to the deferred type table, sets it to the empty table
type, and caches a `Deferred` type pointing at the new id; a
constructor with at least one field node instead leaves the collection
unchanged and caches a plain `Table` type. -/
theorem c10_table_constructor :
    (∀ (f : Nat) (c : DeferredTypeCollection) (line : Nat),
        ntable_constructor_check f c line [] =
          (c ++ [{ type := .table (.mk [] []), name := "@" ++ toString line,
                   nominals := [], narrowing := true }],
           .deferred (.mk 0 c.length []), [])) ∧
      (∀ (f : Nat) (c : DeferredTypeCollection) (line : Nat) (fields : List NField),
        fields ≠ [] →
          (ntable_constructor_check f c line fields).1 = c ∧
          ∃ ixs fds, (ntable_constructor_check f c line fields).2.1
              = Ty.table (.mk ixs fds)) := by
  constructor
  · intro f c line
    simp [ntable_constructor_check, ntable_fields_fold, reserve_narrow,
          collection_set, list_getD_concat, list_set_concat]
  · intro f c line fields hne
    cases fields with
    | nil => exact absurd rfl hne
    | cons x rest =>
      rcases hfold : ntable_fields_fold f c (x :: rest) [] [] [] with ⟨ixs, rest2⟩
      rcases rest2 with ⟨fds, errs⟩
      constructor
      · simp [ntable_constructor_check, hfold]
      · exact ⟨ixs, fds, by simp [ntable_constructor_check, hfold]⟩

/-- Witness for C10: the empty constructor at line 7 on an empty
collection, and a one-field constructor. -/
theorem c10_table_constructor_witness :
    ntable_constructor_check 1 [] 7 [] =
        ([{ type := .table (.mk [] []), name := "@" ++ toString 7,
            nominals := [], narrowing := true }],
         .deferred (.mk 0 ([] : DeferredTypeCollection).length []), []) ∧
      ((ntable_constructor_check 1 [] 7 [.named "a" (.luatype .NUMBER)]).1
          = ([] : DeferredTypeCollection) ∧
        ∃ ixs fds, (ntable_constructor_check 1 [] 7 [.named "a" (.luatype .NUMBER)]).2.1
            = Ty.table (.mk ixs fds)) := by
  exact ⟨c10_table_constructor.1 1 [] 7,
         c10_table_constructor.2 1 [] 7 [.named "a" (.luatype .NUMBER)] (by simp)⟩

end typedlua

namespace typedlua

/-! Claim C9. -/

/-- First-success behavior of the product component loop, for any
already-accumulated notes. -/
theorem rop_first_success (f : Nat) (c : DeferredTypeCollection)
    (args : List Ty) (gpt : Option (String → Ty)) :
    ∀ (pre : List Ty) (t : Ty) (post : List Ty) (r : Ty)
      (notes acc : List String),
      (∀ u ∈ pre, (resolve_overload f c u args gpt).1 = none) →
      resolve_overload f c t args gpt = (some r, notes) →
      resolve_overload_product f c (pre ++ t :: post) args gpt acc
        = (some r, notes) := by
  intro pre
  induction pre with
  | nil =>
    intro t post r notes acc hpre ht
    rw [List.nil_append, resolve_overload_product.eq_def]
    simp [ht]
  | cons u pre' ih =>
    intro t post r notes acc hpre ht
    rw [List.cons_append, resolve_overload_product.eq_def]
    rcases hu : resolve_overload f c u args gpt with ⟨r1, n1⟩
    have h1 : r1 = none := by
      have := hpre u (List.mem_cons_self u pre')
      rwa [hu] at this
    subst h1
    simp only [hu]
    exact ih t post r notes _ (fun v hv => hpre v (List.mem_cons_of_mem _ hv)) ht

/-- All-failure behavior of the product component loop: the notes of
every component are appended, in order, to the accumulated notes. -/
theorem rop_all_fail (f : Nat) (c : DeferredTypeCollection)
    (args : List Ty) (gpt : Option (String → Ty)) :
    ∀ (ts : List Ty) (acc : List String),
      (∀ u ∈ ts, (resolve_overload f c u args gpt).1 = none) →
      resolve_overload_product f c ts args gpt acc
        = (none, acc ++ (ts.map (fun u => (resolve_overload f c u args gpt).2)).flatten) := by
  intro ts
  induction ts with
  | nil =>
    intro acc h
    simp [resolve_overload_product]
  | cons u rest ih =>
    intro acc h
    rw [resolve_overload_product.eq_def]
    rcases hu : resolve_overload f c u args gpt with ⟨r1, n1⟩
    have h1 : r1 = none := by
      have := h u (List.mem_cons_self u rest)
      rwa [hu] at this
    subst h1
    simp only [hu]
    rw [ih (acc ++ n1) (fun v hv => h v (List.mem_cons_of_mem _ hv))]
    simp [hu, List.append_assoc]

/-- C9: `resolve_overload` on `Any` returns `Any` with no notes; on a
`Product` it tries the components in order — the first component that
succeeds determines the result (and only its notes are appended), and
when every component fails the result is `None` with the notes of all
components appended in order. -/
theorem c9_resolve_overload :
    (∀ (f : Nat) (c : DeferredTypeCollection) (args : List Ty)
        (gpt : Option (String → Ty)),
        resolve_overload f c .any args gpt = (some .any, [])) ∧
      (∀ (f : Nat) (c : DeferredTypeCollection) (args : List Ty)
          (gpt : Option (String → Ty)) (pre : List Ty) (t : Ty) (post : List Ty)
          (r : Ty) (notes : List String),
        (∀ u ∈ pre, (resolve_overload f c u args gpt).1 = none) →
        resolve_overload f c t args gpt = (some r, notes) →
        resolve_overload f c (.product (pre ++ t :: post)) args gpt
          = (some r, notes)) ∧
      (∀ (f : Nat) (c : DeferredTypeCollection) (args : List Ty)
          (gpt : Option (String → Ty)) (ts : List Ty),
        (∀ u ∈ ts, (resolve_overload f c u args gpt).1 = none) →
        resolve_overload f c (.product ts) args gpt
          = (none, (ts.map (fun u => (resolve_overload f c u args gpt).2)).flatten)) := by
  refine ⟨?_, ?_, ?_⟩
  · intro f c args gpt
    simp [resolve_overload]
  · intro f c args gpt pre t post r notes hpre ht
    have harm : resolve_overload f c (.product (pre ++ t :: post)) args gpt
        = resolve_overload_product f c (pre ++ t :: post) args gpt [] := by
      rw [resolve_overload.eq_def]
    rw [harm]
    exact rop_first_success f c args gpt pre t post r notes [] hpre ht
  · intro f c args gpt ts hall
    have harm : resolve_overload f c (.product ts) args gpt
        = resolve_overload_product f c ts args gpt [] := by
      rw [resolve_overload.eq_def]
    rw [harm]
    simpa using rop_all_fail f c args gpt ts [] hall

/-- Witness for C9: an `Any` call; a product whose first component (a
primitive) is not callable and whose second (a nullary function)
succeeds; and a product of two non-callable primitives. -/
theorem c9_resolve_overload_witness :
    resolve_overload 1 [] .any [] none = (some .any, []) ∧
      resolve_overload 1 []
          (.product [.luatype .NUMBER, .function (.mk [] [] [] (.luatype .STRING) false)])
          [] none
        = (some (.luatype .STRING), []) ∧
      resolve_overload 1 [] (.product [.luatype .NUMBER, .luatype .STRING]) [] none
        = (none, ["Type `number` cannot be called",
                  "Type `string` cannot be called"]) := by
  have hnum : resolve_overload 1 [] (.luatype .NUMBER) [] none
      = (none, ["Type `number` cannot be called"]) := by
    simp [resolve_overload, to_string_Ty, printTy, printLuaType, printQueueLoop,
          collTypesSize, tySize]
  have hstr : resolve_overload 1 [] (.luatype .STRING) [] none
      = (none, ["Type `string` cannot be called"]) := by
    simp [resolve_overload, to_string_Ty, printTy, printLuaType, printQueueLoop,
          collTypesSize, tySize]
  have hfn : resolve_overload 1 []
      (.function (.mk [] [] [] (.luatype .STRING) false)) [] none
      = (some (.luatype .STRING), []) := by
    simp [resolve_overload, resolve_overload_fn, ro_fn_loop, apply_genparams]
  refine ⟨c9_resolve_overload.1 1 [] [] none, ?_, ?_⟩
  · have := c9_resolve_overload.2.1 1 [] [] none [.luatype .NUMBER]
      (.function (.mk [] [] [] (.luatype .STRING) false)) [] (.luatype .STRING) []
      (by intro u hu; simp at hu; subst hu; simp [hnum]) hfn
    simpa using this
  · have := c9_resolve_overload.2.2 1 [] [] none [.luatype .NUMBER, .luatype .STRING]
      (by intro u hu; simp at hu; rcases hu with rfl | rfl
          · simp [hnum]
          · simp [hstr])
    simpa [hnum, hstr] using this

end typedlua

namespace typedlua

/-! Claim C1: helper lemmas. -/

/-- A member's node count is bounded by the list's node count. -/
theorem tySize_mem_le : ∀ {ps : List Ty} {p : Ty}, p ∈ ps → tySize p ≤ tyListSize ps := by
  intro ps
  induction ps with
  | nil => intro p h; cases h
  | cons q rest ih =>
    intro p h
    rcases List.mem_cons.mp h with rfl | h2
    · simp only [tyListSize]; omega
    · have := ih h2
      simp only [tyListSize]; omega

/-- Members of a `ReflOkList` list are `ReflOk`. -/
theorem reflOkList_mem (f : Nat) (c : DeferredTypeCollection) :
    ∀ {ps : List Ty} {p : Ty}, ReflOkList f c ps = true → p ∈ ps →
      ReflOk f c p = true := by
  intro ps
  induction ps with
  | nil => intro p _ hm; cases hm
  | cons q rest ih =>
    intro p h hm
    simp only [ReflOkList, Bool.and_eq_true] at h
    obtain ⟨h1, h2⟩ := h
    rcases List.mem_cons.mp hm with rfl | hm2
    · exact h1
    · exact ih h2 hm2

/-- Product components of a `ReflOkProd` list are `Any` or `ReflOk`
functions. -/
theorem reflOkProd_mem (f : Nat) (c : DeferredTypeCollection) :
    ∀ {ts : List Ty} {t : Ty}, ReflOkProd f c ts = true → t ∈ ts →
      t = Ty.any ∨ ∃ fn, t = Ty.function fn ∧ ReflOk f c (Ty.function fn) = true := by
  intro ts
  induction ts with
  | nil => intro t _ hm; cases hm
  | cons q rest ih =>
    intro t h hm
    cases q with
    | any =>
      simp only [ReflOkProd] at h
      rcases List.mem_cons.mp hm with rfl | hm2
      · exact Or.inl rfl
      · exact ih h hm2
    | function fn =>
      simp only [ReflOkProd, Bool.and_eq_true] at h
      obtain ⟨h1, h2⟩ := h
      rcases List.mem_cons.mp hm with rfl | hm2
      · exact Or.inr ⟨fn, rfl, h1⟩
      · exact ih h2 hm2
    | void => simp [ReflOkProd] at h
    | luatype lt => simp [ReflOkProd] at h
    | tuple tup => simp [ReflOkProd] at h
    | sum ms => simp [ReflOkProd] at h
    | product ps => simp [ReflOkProd] at h
    | table tab => simp [ReflOkProd] at h
    | deferred d => simp [ReflOkProd] at h
    | literal l => simp [ReflOkProd] at h
    | nominal d => simp [ReflOkProd] at h
    | require b => simp [ReflOkProd] at h

/-- Sum against a right-hand `Sum` succeeds when the left side accepts
every member. -/
theorem rsum_of_all (f : Nat) (c : DeferredTypeCollection) (lhs : Ty) :
    ∀ (ms : List Ty), (∀ m ∈ ms, (is_assignable c f lhs m).yes = true) →
      (is_assignable_rsum c f lhs ms).yes = true := by
  intro ms
  induction ms with
  | nil => intro h; simp [is_assignable_rsum.eq_def]
  | cons m rest ih =>
    intro h
    rw [is_assignable_rsum.eq_def]
    have hm := h m (List.mem_cons_self m rest)
    simp only [hm, Bool.not_true, Bool.false_eq_true, if_false]
    exact ih (fun q hq => h q (List.mem_cons_of_mem _ hq))

/-- A left-hand `Sum` accepts a primitive as soon as one member does. -/
theorem sum_walk_lua (f : Nat) (c : DeferredTypeCollection) (rlua : LuaType) :
    ∀ (ts : List Ty) (t : Ty), t ∈ ts →
      (is_assignable_lua c f t rlua).yes = true →
      ∃ r, sum_assignable_lua c f ts rlua = some r ∧ r.yes = true := by
  intro ts
  induction ts with
  | nil => intro t hm _; cases hm
  | cons q rest ih =>
    intro t hm hy
    rw [sum_assignable_lua.eq_def]
    by_cases hq : (is_assignable_lua c f q rlua).yes = true
    · exact ⟨_, by simp [hq], hq⟩
    · have hm2 : t ∈ rest := by
        rcases List.mem_cons.mp hm with rfl | h2
        · exact absurd hy hq
        · exact h2
      rcases ih t hm2 hy with ⟨r, he, hyr⟩
      exact ⟨r, by simp [hq, he], hyr⟩

/-- A left-hand `Sum` accepts a function as soon as one member does. -/
theorem sum_walk_fn (f : Nat) (c : DeferredTypeCollection) (rfn : FnTy) :
    ∀ (ts : List Ty) (t : Ty), t ∈ ts →
      (is_assignable_fn c f t rfn).yes = true →
      ∃ r, sum_assignable_fn c f ts rfn = some r ∧ r.yes = true := by
  intro ts
  induction ts with
  | nil => intro t hm _; cases hm
  | cons q rest ih =>
    intro t hm hy
    rw [sum_assignable_fn.eq_def]
    by_cases hq : (is_assignable_fn c f q rfn).yes = true
    · exact ⟨_, by simp [hq], hq⟩
    · have hm2 : t ∈ rest := by
        rcases List.mem_cons.mp hm with rfl | h2
        · exact absurd hy hq
        · exact h2
      rcases ih t hm2 hy with ⟨r, he, hyr⟩
      exact ⟨r, by simp [hq, he], hyr⟩

/-- A left-hand `Sum` accepts a tuple as soon as one member does. -/
theorem sum_walk_tuple (f : Nat) (c : DeferredTypeCollection) (rtup : TupleTy) :
    ∀ (ts : List Ty) (t : Ty), t ∈ ts →
      (is_assignable_tuple c f t rtup).yes = true →
      ∃ r, sum_assignable_tuple c f ts rtup = some r ∧ r.yes = true := by
  intro ts
  induction ts with
  | nil => intro t hm _; cases hm
  | cons q rest ih =>
    intro t hm hy
    rw [sum_assignable_tuple.eq_def]
    by_cases hq : (is_assignable_tuple c f q rtup).yes = true
    · exact ⟨_, by simp [hq], hq⟩
    · have hm2 : t ∈ rest := by
        rcases List.mem_cons.mp hm with rfl | h2
        · exact absurd hy hq
        · exact h2
      rcases ih t hm2 hy with ⟨r, he, hyr⟩
      exact ⟨r, by simp [hq, he], hyr⟩

/-- A left-hand `Sum` accepts a table as soon as one member does. -/
theorem sum_walk_table (f : Nat) (c : DeferredTypeCollection) (rtab : TableTy) :
    ∀ (ts : List Ty) (t : Ty), t ∈ ts →
      (is_assignable_table c f t rtab).yes = true →
      ∃ r, sum_assignable_table c f ts rtab = some r ∧ r.yes = true := by
  intro ts
  induction ts with
  | nil => intro t hm _; cases hm
  | cons q rest ih =>
    intro t hm hy
    rw [sum_assignable_table.eq_def]
    by_cases hq : (is_assignable_table c f q rtab).yes = true
    · exact ⟨_, by simp [hq], hq⟩
    · have hm2 : t ∈ rest := by
        rcases List.mem_cons.mp hm with rfl | h2
        · exact absurd hy hq
        · exact h2
      rcases ih t hm2 hy with ⟨r, he, hyr⟩
      exact ⟨r, by simp [hq, he], hyr⟩

/-- A left-hand `Sum` accepts a deferred type as soon as one member does. -/
theorem sum_walk_defer (f : Nat) (c : DeferredTypeCollection) (rd : DeferTy) :
    ∀ (ts : List Ty) (t : Ty), t ∈ ts →
      (is_assignable_rdefer c f t rd).yes = true →
      ∃ r, sum_assignable_defer c f ts rd = some r ∧ r.yes = true := by
  intro ts
  induction ts with
  | nil => intro t hm _; cases hm
  | cons q rest ih =>
    intro t hm hy
    rw [sum_assignable_defer.eq_def]
    by_cases hq : (is_assignable_rdefer c f q rd).yes = true
    · exact ⟨_, by simp [hq], hq⟩
    · have hm2 : t ∈ rest := by
        rcases List.mem_cons.mp hm with rfl | h2
        · exact absurd hy hq
        · exact h2
      rcases ih t hm2 hy with ⟨r, he, hyr⟩
      exact ⟨r, by simp [hq, he], hyr⟩

/-- A left-hand `Sum` accepts a literal as soon as one member does. -/
theorem sum_walk_literal (f : Nat) (c : DeferredTypeCollection) (rlit : LiteralTy) :
    ∀ (ts : List Ty) (t : Ty), t ∈ ts →
      (is_assignable_rliteral c f t rlit).yes = true →
      ∃ r, sum_assignable_literal c f ts rlit = some r ∧ r.yes = true := by
  intro ts
  induction ts with
  | nil => intro t hm _; cases hm
  | cons q rest ih =>
    intro t hm hy
    rw [sum_assignable_literal.eq_def]
    by_cases hq : (is_assignable_rliteral c f q rlit).yes = true
    · exact ⟨_, by simp [hq], hq⟩
    · have hm2 : t ∈ rest := by
        rcases List.mem_cons.mp hm with rfl | h2
        · exact absurd hy hq
        · exact h2
      rcases ih t hm2 hy with ⟨r, he, hyr⟩
      exact ⟨r, by simp [hq, he], hyr⟩

/-- A left-hand `Sum` accepts a nominal as soon as one member does. -/
theorem sum_walk_nominal (f : Nat) (c : DeferredTypeCollection) (rnom : DeferTy) :
    ∀ (ts : List Ty) (t : Ty), t ∈ ts →
      (is_assignable_rnominal c f t rnom).yes = true →
      ∃ r, sum_assignable_nominal c f ts rnom = some r ∧ r.yes = true := by
  intro ts
  induction ts with
  | nil => intro t hm _; cases hm
  | cons q rest ih =>
    intro t hm hy
    rw [sum_assignable_nominal.eq_def]
    by_cases hq : (is_assignable_rnominal c f q rnom).yes = true
    · exact ⟨_, by simp [hq], hq⟩
    · have hm2 : t ∈ rest := by
        rcases List.mem_cons.mp hm with rfl | h2
        · exact absurd hy hq
        · exact h2
      rcases ih t hm2 hy with ⟨r, he, hyr⟩
      exact ⟨r, by simp [hq, he], hyr⟩

/-- A left-hand `Sum` accepts a product as soon as one member does. -/
theorem sum_walk_product (f : Nat) (c : DeferredTypeCollection) (rts : List Ty) :
    ∀ (ts : List Ty) (t : Ty), t ∈ ts →
      (is_assignable_rproduct c f t rts).yes = true →
      ∃ r, sum_assignable_product c f ts rts = some r ∧ r.yes = true := by
  intro ts
  induction ts with
  | nil => intro t hm _; cases hm
  | cons q rest ih =>
    intro t hm hy
    rw [sum_assignable_product.eq_def]
    by_cases hq : (is_assignable_rproduct c f q rts).yes = true
    · exact ⟨_, by simp [hq], hq⟩
    · have hm2 : t ∈ rest := by
        rcases List.mem_cons.mp hm with rfl | h2
        · exact absurd hy hq
        · exact h2
      rcases ih t hm2 hy with ⟨r, he, hyr⟩
      exact ⟨r, by simp [hq, he], hyr⟩

end typedlua

namespace typedlua

/-- The parameter loop of the function/function overload succeeds on
identical non-generic parameter vectors whose members self-assign. -/
theorem fn_params_loop_refl (f : Nat) (c : DeferredTypeCollection)
    (lnoms rnoms : List Nat) :
    ∀ (ps : List Ty) (i : Nat),
      (∀ p ∈ ps, (is_assignable c f p p).yes = true) →
      (fn_params_loop c f [] [] lnoms rnoms i ps ps).yes = true := by
  intro ps
  induction ps with
  | nil => intro i _; simp [fn_params_loop.eq_def]
  | cons p rest ih =>
    intro i h
    rw [fn_params_loop.eq_def]
    have hp := h p (List.mem_cons_self p rest)
    simp only [List.isEmpty_nil, Bool.and_self, if_true, hp, Bool.not_true,
               Bool.false_eq_true, if_false]
    exact ih (i + 1) (fun q hq => h q (List.mem_cons_of_mem _ hq))

/-- The positional tuple loop succeeds on identical item vectors whose
members self-assign. -/
theorem tuple_items_loop_refl (f : Nat) (c : DeferredTypeCollection) :
    ∀ (ts : List Ty) (i : Nat) (lvar rvar : Bool),
      (∀ t ∈ ts, (is_assignable c f t t).yes = true) →
      (tuple_items_loop c f i ts ts lvar rvar).yes = true := by
  intro ts
  induction ts with
  | nil => intro i lvar rvar _; simp [tuple_items_loop.eq_def]
  | cons t rest ih =>
    intro i lvar rvar h
    rw [tuple_items_loop.eq_def]
    have ht := h t (List.mem_cons_self t rest)
    simp only [ht, Bool.not_true, Bool.false_eq_true, if_false]
    exact ih (i + 1) lvar rvar (fun q hq => h q (List.mem_cons_of_mem _ hq))

/-- `is_divisible` succeeds as soon as one component accepts the
divisor. -/
theorem is_divisible_of_mem (f : Nat) (c : DeferredTypeCollection) (divisor : Ty) :
    ∀ (rts : List Ty) (rt : Ty), rt ∈ rts →
      (is_assignable c f divisor rt).yes = true →
      (is_divisible c f rts divisor).yes = true := by
  intro rts
  induction rts with
  | nil => intro rt hm _; cases hm
  | cons q rest ih =>
    intro rt hm hy
    rw [is_divisible.eq_def]
    by_cases hq : (is_assignable c f divisor q).yes = true
    · simp [hq]
    · have hm2 : rt ∈ rest := by
        rcases List.mem_cons.mp hm with rfl | h2
        · exact absurd hy hq
        · exact h2
      simp only [hq, Bool.false_eq_true, if_false]
      exact ih rt hm2 hy

/-- The product/product overload succeeds when every left component is
accepted by the right product. -/
theorem prodprod_of_all (f : Nat) (c : DeferredTypeCollection) (rts : List Ty) :
    ∀ (lts : List Ty),
      (∀ lt ∈ lts, (is_assignable_rproduct c f lt rts).yes = true) →
      (is_assignable_product_product c f lts rts).yes = true := by
  intro lts
  induction lts with
  | nil => intro _; simp [is_assignable_product_product.eq_def]
  | cons q rest ih =>
    intro h
    rw [is_assignable_product_product.eq_def]
    have hq := h q (List.mem_cons_self q rest)
    simp only [hq, Bool.not_true, Bool.false_eq_true, if_false]
    exact ih (fun t ht => h t (List.mem_cons_of_mem _ ht))

/-- The right-index scan succeeds when every right index whose key
accepts the left key has a value the left value accepts. -/
theorem table_rindexes_loop_of (f : Nat) (c : DeferredTypeCollection) (lk lv : Ty) :
    ∀ (rixs : List (Ty × Ty)),
      (∀ rk rv, (rk, rv) ∈ rixs → (is_assignable c f rk lk).yes = true →
        (is_assignable c f lv rv).yes = true) →
      (table_rindexes_loop c f lk lv rixs).yes = true := by
  intro rixs
  induction rixs with
  | nil => intro _; simp [table_rindexes_loop.eq_def]
  | cons kv rest ih =>
    rcases kv with ⟨rk, rv⟩
    intro h
    rw [table_rindexes_loop.eq_def]
    by_cases hk : (is_assignable c f rk lk).yes = true
    · have hv := h rk rv (List.mem_cons_self _ _) hk
      simp only [hk, if_true, hv, Bool.not_true, Bool.false_eq_true, if_false]
      exact ih (fun a b hm hx => h a b (List.mem_cons_of_mem _ hm) hx)
    · simp only [hk, Bool.false_eq_true, if_false]
      exact ih (fun a b hm hx => h a b (List.mem_cons_of_mem _ hm) hx)

/-- The right-field scan succeeds when the left index value accepts
every field type. -/
theorem table_rfields_loop_of (f : Nat) (c : DeferredTypeCollection) (lk lv : Ty) :
    ∀ (rfs : List (String × Ty)),
      (∀ nm ft, (nm, ft) ∈ rfs → (is_assignable c f lv ft).yes = true) →
      (table_rfields_loop c f lk lv rfs).yes = true := by
  intro rfs
  induction rfs with
  | nil => intro _; simp [table_rfields_loop.eq_def]
  | cons p rest ih =>
    rcases p with ⟨nm, ft⟩
    intro h
    rw [table_rfields_loop.eq_def]
    have hv := h nm ft (List.mem_cons_self _ _)
    simp only [hv, Bool.not_true, Bool.false_eq_true, if_false]
    exact ih (fun a b hm => h a b (List.mem_cons_of_mem _ hm))

/-- The outer left-index loop succeeds when each left index passes both
the right-index scan and (for string-accepting keys) the field scan. -/
theorem table_indexes_loop_of (f : Nat) (c : DeferredTypeCollection)
    (rixs : List (Ty × Ty)) (rfs : List (String × Ty)) :
    ∀ (lixs : List (Ty × Ty)),
      (∀ lk lv, (lk, lv) ∈ lixs → (table_rindexes_loop c f lk lv rixs).yes = true) →
      (∀ lk lv, (lk, lv) ∈ lixs → (is_assignable_lua c f lk .STRING).yes = true →
        (table_rfields_loop c f lk lv rfs).yes = true) →
      (table_indexes_loop c f lixs rixs rfs).yes = true := by
  intro lixs
  induction lixs with
  | nil => intro _ _; simp [table_indexes_loop.eq_def]
  | cons kv rest ih =>
    rcases kv with ⟨lk, lv⟩
    intro h1 h2
    rw [table_indexes_loop.eq_def]
    have hr := h1 lk lv (List.mem_cons_self _ _)
    by_cases hs : (is_assignable_lua c f lk .STRING).yes = true
    · have hf := h2 lk lv (List.mem_cons_self _ _) hs
      simp only [hr, Bool.not_true, Bool.false_eq_true, if_false, hs, if_true, hf]
      exact ih (fun a b hm => h1 a b (List.mem_cons_of_mem _ hm))
        (fun a b hm hx => h2 a b (List.mem_cons_of_mem _ hm) hx)
    · simp only [hr, Bool.not_true, Bool.false_eq_true, if_false, hs]
      exact ih (fun a b hm => h1 a b (List.mem_cons_of_mem _ hm))
        (fun a b hm hx => h2 a b (List.mem_cons_of_mem _ hm) hx)

/-- When a same-named right field exists, the field search succeeds iff
the left type accepts the first such occurrence (`find_field`). -/
theorem table_field_find_found (f : Nat) (c : DeferredTypeCollection) :
    ∀ (rfs : List (String × Ty)) (n : String) (t : Ty),
      (∃ p ∈ rfs, p.1 = n) →
      (is_assignable c f t (find_field rfs n)).yes = true →
      (table_field_find c f n t rfs).yes = true := by
  intro rfs
  induction rfs with
  | nil =>
    intro n t hex _
    rcases hex with ⟨p, hp, _⟩
    cases hp
  | cons q rest ih =>
    rcases q with ⟨rn, rt⟩
    intro n t hex hy
    rw [table_field_find.eq_def]
    by_cases he : n = rn
    · subst he
      simp [find_field, List.find?] at hy
      simp [hy]
    · have hne1 : (n == rn) = false := beq_eq_false_iff_ne.mpr he
      have hne2 : (rn == n) = false := beq_eq_false_iff_ne.mpr (Ne.symm he)
      have hff : find_field ((rn, rt) :: rest) n = find_field rest n := by
        simp [find_field, List.find?, hne2]
      rw [hff] at hy
      have hex2 : ∃ p ∈ rest, p.1 = n := by
        rcases hex with ⟨p, hp, hpn⟩
        rcases List.mem_cons.mp hp with rfl | hp2
        · exact absurd hpn.symm he
        · exact ⟨p, hp2, hpn⟩
      simp only [hne1, Bool.false_eq_true, if_false]
      exact ih n t hex2 hy

/-- The left-field loop succeeds when each left field passes the field
search. -/
theorem table_lfields_loop_of (f : Nat) (c : DeferredTypeCollection)
    (rfs : List (String × Ty)) :
    ∀ (lfs : List (String × Ty)),
      (∀ nm t, (nm, t) ∈ lfs → (table_field_find c f nm t rfs).yes = true) →
      (table_lfields_loop c f lfs rfs).yes = true := by
  intro lfs
  induction lfs with
  | nil => intro _; simp [table_lfields_loop.eq_def]
  | cons p rest ih =>
    rcases p with ⟨nm, t⟩
    intro h
    rw [table_lfields_loop.eq_def]
    have ht := h nm t (List.mem_cons_self _ _)
    simp only [ht, Bool.not_true, Bool.false_eq_true, if_false]
    exact ih (fun a b hm => h a b (List.mem_cons_of_mem _ hm))

end typedlua

namespace typedlua

/-- Soundness of `ReflOk`: every type in the class self-assigns, by
strong induction on the node count. -/
theorem refl_ok_sound :
    ∀ (n : Nat) (T : Ty), tySize T ≤ n →
      ∀ (f : Nat) (c : DeferredTypeCollection),
        ReflOk f c T = true → (is_assignable c f T T).yes = true := by
  intro n
  induction n using Nat.strong_induction_on with
  | _ n ih =>
    intro T hn f c h
    cases T with
    | void =>
      rw [isA_yes_void]
      simp [is_assignable_void]
    | any => exact isA_yes_any f c Ty.any
    | luatype lt =>
      rw [isA_yes_lua]
      simp [is_assignable_lua.eq_def, is_assignable_lua_lua]
    | literal l =>
      rw [isA_yes_literal]
      cases l with
      | boolean b => simp [is_assignable_rliteral.eq_def, is_assignable_literal_literal]
      | number nr =>
        cases nr with
        | integer i =>
          simp [is_assignable_rliteral.eq_def, is_assignable_literal_literal, numberRepEq]
        | floating bits => simp [ReflOk] at h
      | string s => simp [is_assignable_rliteral.eq_def, is_assignable_literal_literal]
    | nominal d =>
      rw [isA_yes_nominal]
      simp [is_assignable_rnominal.eq_def, is_assignable_nominal_nominal]
    | deferred d =>
      rw [isA_yes_defer]
      simp [is_assignable_rdefer.eq_def, is_assignable_defer_defer.eq_def]
    | require b => simp [ReflOk] at h
    | function fn =>
      rcases fn with ⟨gps, noms, ps, ret, varr⟩
      simp only [ReflOk, Bool.and_eq_true] at h
      obtain ⟨⟨hgps, hps⟩, hret⟩ := h
      rcases gps with _ | ⟨g, gs⟩
      case cons => simp at hgps
      have hloop : (fn_params_loop c f [] [] noms noms 0 ps ps).yes = true := by
        apply fn_params_loop_refl
        intro p hp
        have hmem := tySize_mem_le hp
        exact ih (tySize p)
          (by simp only [tySize, fnSize, tyNamedListSize] at hn; omega)
          p le_rfl f c (reflOkList_mem f c hps hp)
      have hrety : (is_assignable c f ret ret).yes = true :=
        ih (tySize ret)
          (by simp only [tySize, fnSize, tyNamedListSize] at hn; omega)
          ret le_rfl f c hret
      rw [isA_yes_fn]
      simp only [is_assignable_fn.eq_def]
      rw [is_assignable_fn_fn.eq_def]
      simp [hloop, hrety]
    | tuple tup =>
      rcases tup with ⟨ts, tvar⟩
      simp only [ReflOk, Bool.and_eq_true] at h
      obtain ⟨hts, hlast⟩ := h
      have hitems : ∀ t ∈ ts, (is_assignable c f t t).yes = true := by
        intro t ht
        have hmem := tySize_mem_le ht
        exact ih (tySize t)
          (by simp only [tySize, tupSize] at hn; omega)
          t le_rfl f c (reflOkList_mem f c hts ht)
      rw [isA_yes_tuple]
      simp only [is_assignable_tuple.eq_def]
      rw [is_assignable_tuple_tuple.eq_def]
      split
      rename_i heq1 heq2
      injection heq1 with e1 e2
      injection heq2 with e3 e4
      subst e1
      subst e2
      subst e3
      subst e4
      split
      · rename_i heq
        rw [heq] at hlast
        simp at hlast
      · exact tuple_items_loop_refl f c ts 0 tvar tvar hitems
    | sum ms =>
      simp only [ReflOk, Bool.and_eq_true] at h
      obtain ⟨hms, hflags⟩ := h
      rw [isA_yes_sum]
      apply rsum_of_all
      intro m hm
      have hsz := tySize_mem_le hm
      have hrm : ReflOk f c m = true := reflOkList_mem f c hms hm
      have hym : (is_assignable c f m m).yes = true :=
        ih (tySize m) (by simp only [tySize] at hn; omega) m le_rfl f c hrm
      have hflag := List.all_eq_true.mp hflags m hm
      simp only [Bool.and_eq_true, Bool.not_eq_true'] at hflag
      obtain ⟨hnv, hns⟩ := hflag
      cases m with
      | void => simp [isVoidT] at hnv
      | sum ts2 => simp [isSumT] at hns
      | any => exact isA_yes_any f c (Ty.sum ms)
      | require b => simp [ReflOk] at hrm
      | luatype lt =>
        rw [isA_yes_lua]
        have hmm : (is_assignable_lua c f (.luatype lt) lt).yes = true := by
          rw [← isA_yes_lua]; exact hym
        rcases sum_walk_lua f c lt ms (.luatype lt) hm hmm with ⟨r, he, hyr⟩
        rw [is_assignable_lua.eq_def]
        simp [he, hyr]
      | function fn =>
        rw [isA_yes_fn]
        have hmm : (is_assignable_fn c f (.function fn) fn).yes = true := by
          rw [← isA_yes_fn]; exact hym
        rcases sum_walk_fn f c fn ms (.function fn) hm hmm with ⟨r, he, hyr⟩
        rw [is_assignable_fn.eq_def]
        simp [he, hyr]
      | tuple tup =>
        rw [isA_yes_tuple]
        have hmm : (is_assignable_tuple c f (.tuple tup) tup).yes = true := by
          rw [← isA_yes_tuple]; exact hym
        rcases sum_walk_tuple f c tup ms (.tuple tup) hm hmm with ⟨r, he, hyr⟩
        rw [is_assignable_tuple.eq_def]
        simp [he, hyr]
      | table tab =>
        rw [isA_yes_table]
        have hmm : (is_assignable_table c f (.table tab) tab).yes = true := by
          rw [← isA_yes_table]; exact hym
        rcases sum_walk_table f c tab ms (.table tab) hm hmm with ⟨r, he, hyr⟩
        rw [is_assignable_table.eq_def]
        simp [he, hyr]
      | deferred d =>
        rw [isA_yes_defer]
        have hmm : (is_assignable_rdefer c f (.deferred d) d).yes = true := by
          rw [← isA_yes_defer]; exact hym
        rcases sum_walk_defer f c d ms (.deferred d) hm hmm with ⟨r, he, hyr⟩
        rw [is_assignable_rdefer.eq_def]
        simp [he, hyr]
      | literal l =>
        rw [isA_yes_literal]
        have hmm : (is_assignable_rliteral c f (.literal l) l).yes = true := by
          rw [← isA_yes_literal]; exact hym
        rcases sum_walk_literal f c l ms (.literal l) hm hmm with ⟨r, he, hyr⟩
        rw [is_assignable_rliteral.eq_def]
        simp [he, hyr]
      | nominal d =>
        rw [isA_yes_nominal]
        have hmm : (is_assignable_rnominal c f (.nominal d) d).yes = true := by
          rw [← isA_yes_nominal]; exact hym
        rcases sum_walk_nominal f c d ms (.nominal d) hm hmm with ⟨r, he, hyr⟩
        rw [is_assignable_rnominal.eq_def]
        simp [he, hyr]
      | product pts =>
        rw [isA_yes_product]
        have hmm : (is_assignable_rproduct c f (.product pts) pts).yes = true := by
          rw [← isA_yes_product]; exact hym
        rcases sum_walk_product f c pts ms (.product pts) hm hmm with ⟨r, he, hyr⟩
        rw [is_assignable_rproduct.eq_def]
        simp [he, hyr]
    | product pts =>
      simp only [ReflOk] at h
      rw [isA_yes_product]
      simp only [is_assignable_rproduct.eq_def]
      apply prodprod_of_all
      intro lt hlt
      rcases reflOkProd_mem f c h hlt with rfl | ⟨fn, rfl, hfn⟩
      · simp [is_assignable_rproduct.eq_def]
      · have hsz := tySize_mem_le hlt
        have hy : (is_assignable c f (.function fn) (.function fn)).yes = true :=
          ih (tySize (Ty.function fn)) (by simp only [tySize] at hn; omega)
            (Ty.function fn) le_rfl f c hfn
        simp only [is_assignable_rproduct.eq_def]
        exact is_divisible_of_mem f c (Ty.function fn) pts (Ty.function fn) hlt hy
    | table tab =>
      rcases tab with ⟨ixs, fs⟩
      simp only [ReflOk, Bool.and_eq_true, List.all_eq_true] at h
      obtain ⟨⟨h1, h2⟩, h3⟩ := h
      rw [isA_yes_table]
      simp only [is_assignable_table.eq_def]
      rw [is_assignable_table_table.eq_def]
      have hidx : (table_indexes_loop c f ixs ixs fs).yes = true := by
        apply table_indexes_loop_of
        · intro lk lv hmem
          apply table_rindexes_loop_of
          intro rk rv hmem2 hk
          have ha := h1 (lk, lv) hmem (rk, rv) hmem2
          simp only [Bool.or_eq_true, Bool.not_eq_true'] at ha
          rcases ha with hne | hok
          · simp [hk] at hne
          · exact hok
        · intro lk lv hmem hstr
          apply table_rfields_loop_of
          intro nm ft hf
          have ha := h2 (lk, lv) hmem
          simp only [Bool.or_eq_true, Bool.not_eq_true'] at ha
          rcases ha with hne | hok
          · simp [hstr] at hne
          · exact List.all_eq_true.mp hok (nm, ft) hf
      have hlf : (table_lfields_loop c f fs fs).yes = true := by
        apply table_lfields_loop_of
        intro nm t hmem
        apply table_field_find_found
        · exact ⟨(nm, t), hmem, rfl⟩
        · exact h3 (nm, t) hmem
      simp [hidx, hlf]

end typedlua

namespace typedlua

/-- C1 counterexample: reflexivity fails for `Require` types — the
dispatcher has no `REQUIRE` case, so `Require(Void) ← Require(Void)`
falls into the C++ `default` branch and is rejected. -/
theorem c1_reflexivity_counterexample :
    (is_assignable [] 1 (Ty.require Ty.void) (Ty.require Ty.void)).yes = false := by
  simp [is_assignable]

/-- C1 (amended): assignability is reflexive on the `ReflOk` class —
`Void`, `Any`, primitives, non-floating literals, nominals, deferred
types, and the compound types built from the class (non-generic
functions, tuples not ending in a tuple, flat `Void`-free sums,
products of `Any`/function components, and internally consistent
tables). It is not reflexive on all types: `Require` types always fail
(see the counterexample). -/
theorem c1_assignability_reflexive (f : Nat) (c : DeferredTypeCollection)
    (T : Ty) (h : ReflOk f c T = true) :
    (is_assignable c f T T).yes = true :=
  refl_ok_sound (tySize T) T le_rfl f c h

/-- Witness for C1 at the function type (Number) → String. -/
theorem c1_assignability_reflexive_witness :
    ReflOk 1 [] (Ty.function (.mk [] [] [.luatype .NUMBER] (.luatype .STRING) false)) = true ∧
      (is_assignable [] 1
          (Ty.function (.mk [] [] [.luatype .NUMBER] (.luatype .STRING) false))
          (Ty.function (.mk [] [] [.luatype .NUMBER] (.luatype .STRING) false))).yes = true := by
  have h : ReflOk 1 [] (Ty.function (.mk [] [] [.luatype .NUMBER] (.luatype .STRING) false)) = true := by
    simp [ReflOk, ReflOkList]
  exact ⟨h, c1_assignability_reflexive 1 [] _ h⟩

end typedlua
